import Mathlib

/-!
Verification development for `a555watch` (src/main.go), a `watch`-like tool that
repeatedly runs a command, keeps a deduplicated history of distinct outputs, and
shows diffs between consecutive captures.

The shallow embedding below translates the state carried by the bubbletea
`model` struct and the event handlers `handleCmdCycle`, `handleKey`,
`doSwitchContent` (TUI mode) and the `mainClassic` loop (classic mode) of
src/main.go.  Conventions:

* Timestamps (`time.Now()`): a `Nat` drawn from a strictly increasing counter
  `clock` held in the model; one fresh timestamp is drawn per command cycle,
  mirroring the unique, strictly increasing `time.Time` keys of `m.hist`.
* The Go map `hist map[time.Time]*historyEntry` becomes an association list
  `List (Nat × HistoryEntry)`; the newest entry is consed at the front (the map
  itself is unordered, but order of insertion is all the code relies on through
  `prevT` links, and the list view keeps lookups executable).
* The third-party diff library (`github.com/sergi/go-diff/diffmatchpatch`) is
  not part of this repository; its calls (`DiffMain`, the
  `DiffLinesToChars`/`DiffCharsToLines` pipeline, `DiffCleanupSemanticLossless`,
  `DiffPrettyText`, `DiffLevenshtein`) are abstracted into a `DiffEngine`
  record of opaque functions, so every theorem below holds for an arbitrary
  deterministic diff backend.  The counting loop over diffs in
  `listItem.update` (src/main.go:341-355) is repository code and is embedded
  concretely.
* The third-party `bubbles` timer used by the scheduler is modelled by
  `TimerModel` (`timeout` = remaining whole intervals, `running`), with the
  library's published semantics: `New` sets a fresh timeout, `Toggle` flips the
  running flag based on `Running()` and leaves the remaining timeout untouched,
  a tick decrements the timeout while running, and reaching zero emits the
  timeout event that dispatches `runCmd`.
* The third-party `bubbles` list is modelled as the flat list of items plus the
  selection index (`Index()`); pagination is abstracted into that flat index.
  `InsertItem(0, it)` conses and leaves the index unchanged; `CursorDown` /
  `CursorUp` move the index clamped at the ends (InfiniteScrolling is false).
  List filtering is not modelled (no claim concerns it).
-/

namespace A555Watch

/-- Diff operation kind, mirroring `diffmatchpatch.Operation`
(`DiffInsert`, `DiffDelete`, `DiffEqual`). -/
inductive DiffOp where
  | DiffInsert
  | DiffDelete
  | DiffEqual
deriving DecidableEq, BEq, Repr

/-- One diff run, mirroring `diffmatchpatch.Diff` (`Type`, `Text`). -/
structure Diff where
  op : DiffOp
  text : String
deriving DecidableEq, Repr

/-- Abstract interface to the third-party diff library.  `diffLineOps` stands
for the line-mode pipeline `DiffLinesToChars` / `DiffMain` / `DiffCharsToLines`
(src/main.go:615-617); `diffCharOps` stands for the char-mode pipeline
`DiffMain` followed by `DiffCleanupSemanticLossless` (src/main.go:627-628);
`prettyText` stands for `DiffPrettyText`; `levenshtein` for `DiffLevenshtein`.
All are plain functions, hence deterministic, as the library's are. -/
structure DiffEngine where
  diffLineOps : String → String → List Diff
  diffCharOps : String → String → List Diff
  prettyText : List Diff → String
  levenshtein : List Diff → Nat

/-- One stored capture, mirroring `historyEntry` (src/main.go:308-312):
the raw output `plain`, the lazily cached pretty diffs `diffC`/`diffL`
(both `nil` at creation), and the timestamp of the previous distinct
capture `prevT` (`nil` for the oldest capture). -/
structure HistoryEntry where
  plain : String
  diffC : Option String
  diffL : Option String
  prevT : Option Nat
deriving DecidableEq, Repr

instance : Inhabited HistoryEntry := ⟨⟨"", none, none, none⟩⟩

/-- `newHistoryEntry` (src/main.go:314-316). -/
def newHistoryEntry (txt : String) (prevT : Option Nat) : HistoryEntry :=
  { plain := txt, prevT := prevT, diffC := none, diffL := none }

/-- One row of the history list, mirroring `listItem`
(src/main.go:318-326); counters start out unset (`nil`, rendered `n/a`). -/
structure ListItem where
  t : Nat
  nChars : Nat
  nLines : Nat
  levDist : Option Nat
  additions : Option Nat
  deletions : Option Nat
deriving DecidableEq, Repr

/-- `newListItem` (src/main.go:328-333). -/
def newListItem (t chars lines : Nat) : ListItem :=
  { t := t, nChars := chars, nLines := lines,
    levDist := none, additions := none, deletions := none }

/-- Number of insert runs in a diff list: the `DiffInsert` arm of the loop of
`listItem.update` (src/main.go:347-353). -/
def countInserts (ds : List Diff) : Nat :=
  (ds.filter (fun d => d.op == DiffOp.DiffInsert)).length

/-- Number of delete runs: the `DiffDelete` arm of the same loop. -/
def countDeletes (ds : List Diff) : Nat :=
  (ds.filter (fun d => d.op == DiffOp.DiffDelete)).length

/-- `listItem.update` (src/main.go:341-355): set the Levenshtein distance and
the insert/delete run counts from a computed diff. -/
def listItemUpdate (E : DiffEngine) (i : ListItem) (ds : List Diff) : ListItem :=
  { i with levDist := some (E.levenshtein ds),
           additions := some (countInserts ds),
           deletions := some (countDeletes ds) }

/-- The bubbles countdown timer, reduced to what the scheduler uses:
remaining whole intervals and the running flag (`timer.Model`).
The zero value `timer.Model{}` of src/main.go:206 is `⟨0, false⟩`. -/
structure TimerModel where
  timeout : Nat
  running : Bool
deriving DecidableEq, Repr

/-- `timer.Running()`: false once timed out or stopped. -/
def TimerModel.runningNow (tm : TimerModel) : Bool :=
  tm.running && decide (0 < tm.timeout)

/-- `timer.Toggle()` followed by the `StartStopMsg` update: the running flag
becomes the negation of `Running()`; the remaining `Timeout` is untouched. -/
def timerToggle (tm : TimerModel) : TimerModel :=
  { tm with running := !tm.runningNow }

/-- Which view is focussed (`focussedView`, src/main.go:88-93). -/
inductive Focus where
  | pager
  | list
deriving DecidableEq, Repr

/-- Why the TUI program quit (which `tea.Quit` site fired, or `q`). -/
inductive QuitReason where
  | user
  | errExitTrig
  | chgExitTrig
  | launchFailure
  | internalErr
deriving DecidableEq, Repr

/-- Execution outcome attached to a `cmdMsg` (src/main.go:357-360):
`msg.err` is `nil`, an `*exec.ExitError` (with `ProcessState.Success()`),
or any other error (launch failure). -/
inductive CmdErr where
  | noErr
  | exitError (success : Bool)
  | launchError
deriving DecidableEq, Repr

/-- The model state of the TUI (`model`, src/main.go:98-130), restricted to the
fields the polling/history/diff core reads or writes.  `clock` supplies fresh
timestamps; `inFlight` records that `runCmd` has been dispatched and its
`cmdMsg` not yet processed; `quitReason` records a delivered `tea.Quit`. -/
structure Model where
  interval : Nat
  errExit : Bool
  chgExit : Bool
  lineDiff : Bool
  follow : Bool
  paused : Bool
  focus : Focus
  hist : List (Nat × HistoryEntry)
  prevT : Option Nat
  seleT : Option Nat
  items : List ListItem
  index : Nat
  pagerContent : String
  timer : TimerModel
  clock : Nat
  inFlight : Bool
  quitReason : Option QuitReason
deriving DecidableEq, Repr

/-- Configuration values of the flags used by the core. -/
structure Config where
  interval : Nat
  errExit : Bool
  chgExit : Bool
deriving DecidableEq, Repr

/-- Initial model (`newModel`, src/main.go:149-209) as run by `mainTea`:
`lineDiff`/`follow` start true, `paused` false, focus on the pager, empty
store and list, zero-value timer.  `Init` (src/main.go:362-364) immediately
dispatches `runCmd`, so a command starts in flight. -/
def initModel (cfg : Config) : Model :=
  { interval := cfg.interval, errExit := cfg.errExit, chgExit := cfg.chgExit,
    lineDiff := true, follow := true, paused := false, focus := Focus.pager,
    hist := [], prevT := none, seleT := none, items := [], index := 0,
    pagerContent := "", timer := ⟨0, false⟩, clock := 0,
    inFlight := true, quitReason := none }

/-- Lookup in the history map (`m.hist[t]`). -/
def histFind : List (Nat × HistoryEntry) → Nat → Option HistoryEntry
  | [], _ => none
  | (k, e) :: r, t => if k = t then some e else histFind r t

/-- Total lookup.  In Go a missing key would dereference a nil pointer; every
state this development runs keeps the looked-up keys present, so the default
entry is never consulted. -/
def histLookup (h : List (Nat × HistoryEntry)) (t : Nat) : HistoryEntry :=
  (histFind h t).getD default

/-- In-place mutation of the entry under key `t` (`*historyEntry` is shared, so
`seleHist.diffL = &...` in Go updates the stored entry). -/
def histUpdate : List (Nat × HistoryEntry) → Nat → (HistoryEntry → HistoryEntry) →
    List (Nat × HistoryEntry)
  | [], _, _ => []
  | (k, e) :: r, t, f =>
      if k = t then (k, f e) :: histUpdate r t f else (k, e) :: histUpdate r t f

/-- `m.list.CursorUp()` on the flat index (clamped at 0). -/
def Model.cursorUp (m : Model) : Model :=
  { m with index := m.index - 1 }

/-- `m.list.CursorDown()` on the flat index (clamped at the last item;
InfiniteScrolling is false). -/
def Model.cursorDown (m : Model) : Model :=
  { m with index := if m.index + 1 < m.items.length then m.index + 1 else m.index }

/-- `strings.Count(msgS, "\n")`. -/
def countNewlines (s : String) : Nat :=
  (s.toList.filter (fun c => c = '\n')).length

/-- `doSwitchContent` (src/main.go:591-641).  Looks up the selected list item;
if the selection did not change (and the diff mode did not change) it returns
unchanged; for the oldest capture it shows the raw content; otherwise it shows
the cached pretty diff for the current mode, computing and caching it (and the
item's counters, via `SetItem`) on first use.  The nil-item path prints an
error and quits (`tea.Quit`). -/
def doSwitchContent (E : DiffEngine) (changedDiffMode : Bool) (m : Model) : Model :=
  match m.items.get? m.index with
  | none => { m with quitReason := some QuitReason.internalErr }
  | some sli =>
    if changedDiffMode = false ∧ m.seleT = some sli.t then m
    else
      let seleHist := histLookup m.hist sli.t
      match seleHist.prevT with
      | none =>
          { m with pagerContent := seleHist.plain, seleT := some sli.t }
      | some pt =>
          let prevHist := histLookup m.hist pt
          if m.lineDiff then
            match seleHist.diffL with
            | some p => { m with pagerContent := p, seleT := some sli.t }
            | none =>
                let diffs := E.diffLineOps prevHist.plain seleHist.plain
                let sli' := listItemUpdate E sli diffs
                let pretty := E.prettyText diffs
                { m with
                  items := m.items.set m.index sli',
                  hist := histUpdate m.hist sli.t (fun e => { e with diffL := some pretty }),
                  pagerContent := pretty, seleT := some sli.t }
          else
            match seleHist.diffC with
            | some p => { m with pagerContent := p, seleT := some sli.t }
            | none =>
                let diffs := E.diffCharOps prevHist.plain seleHist.plain
                let sli' := listItemUpdate E sli diffs
                let pretty := E.prettyText diffs
                { m with
                  items := m.items.set m.index sli',
                  hist := histUpdate m.hist sli.t (fun e => { e with diffC := some pretty }),
                  pagerContent := pretty, seleT := some sli.t }

/-- The dedup test of `handleCmdCycle` (src/main.go:536-542): the output is
"different" when the store is empty or the newest stored capture's content
differs byte-for-byte. -/
def isDifferentOutput (m : Model) (out : String) : Bool :=
  match m.prevT with
  | none => true
  | some pt => (histLookup m.hist pt).plain != out

/-- Tail of `handleCmdCycle` (src/main.go:570-580): the chgexit check — note it
reads `m.prevT` after the insertion block may already have reassigned it — and
the re-arming of a fresh full-interval timer unless paused. -/
def afterErrChecks (m : Model) (isDiff : Bool) : Model :=
  if m.chgExit = true ∧ m.prevT.isSome = true ∧ isDiff = true then
    { m with quitReason := some QuitReason.chgExitTrig }
  else if m.paused = false then
    { m with timer := ⟨m.interval, true⟩ }
  else m

/-- The error-handling dispatch of `handleCmdCycle` (src/main.go:557-568)
followed by `afterErrChecks`: a non-`ExitError` (launch failure) always quits;
a non-zero exit quits when errexit is enabled; otherwise fall through to the
chgexit check and the timer re-arm. -/
def errDispatch (m3 : Model) (isDiff : Bool) (err : CmdErr) : Model :=
  match err with
  | CmdErr.exitError success =>
      if success = false ∧ m3.errExit = true then
        { m3 with quitReason := some QuitReason.errExitTrig }
      else afterErrChecks m3 isDiff
  | CmdErr.launchError => { m3 with quitReason := some QuitReason.launchFailure }
  | CmdErr.noErr => afterErrChecks m3 isDiff

/-- The state-mutating front of `handleCmdCycle` (src/main.go:532-555): draw a
fresh timestamp, on the first capture select it and fill the pager, and insert
a new capture and list item when the output is different (switching the shown
content when following the latest, else compensating the cursor). -/
def cmdCyclePre (E : DiffEngine) (m : Model) (out : String) : Model :=
  let now := m.clock
  let isDiff := isDifferentOutput m out
  let m1 : Model := { m with clock := now + 1, inFlight := false }
  let m2 : Model :=
    match m1.prevT with
    | none => { m1 with seleT := some now, pagerContent := out }
    | some _ => m1
  if isDiff then
    let mi : Model :=
      { m2 with
        hist := (now, newHistoryEntry out m2.prevT) :: m2.hist,
        prevT := some now,
        items := newListItem now out.length (countNewlines out) :: m2.items }
    if mi.follow then doSwitchContent E false mi else mi.cursorDown
  else m2

/-- `handleCmdCycle` (src/main.go:524-581): the insertion front above followed
by the errexit / launch-failure / chgexit decisions and the timer re-arm. -/
def handleCmdCycle (E : DiffEngine) (m : Model) (out : String) (err : CmdErr) : Model :=
  errDispatch (cmdCyclePre E m out) (isDifferentOutput m out) err

/-- The key inputs the core reacts to (`handleKey`, src/main.go:415-522,
restricted to the bindings the claims concern).  `navUp`/`navDown` are the
list `CursorUp`/`CursorDown` bindings (`up`/`k`, `down`/`j`), `nextPage` /
`prevPage` the page bindings, `goToStart`/`goToEnd` the `g`/`G` bindings
(handled only by the embedded list component, not by `handleKey`). -/
inductive KeyEvent where
  | navUp
  | navDown
  | nextPage
  | prevPage
  | goToStart
  | goToEnd
  | switchContentUp
  | switchContentDown
  | diffMode
  | toggleFollow
  | togglePause
  | switchFocus
  | quitKey
deriving DecidableEq, Repr

/-- `handleKey` (src/main.go:415-522) combined with the subsequent
`m.list.Update(msg)` dispatch of `Update` (src/main.go:403-410) that moves the
list cursor when the list is focussed.  Cursor movement caused by page keys
goes through the paginator and is abstracted away (no claim depends on it:
those keys disable `follow` first). -/
def handleKey (E : DiffEngine) (m : Model) (k : KeyEvent) : Model :=
  match k with
  | KeyEvent.navUp =>
      if m.focus = Focus.list then Model.cursorUp { m with follow := false } else m
  | KeyEvent.navDown =>
      if m.focus = Focus.list then Model.cursorDown { m with follow := false } else m
  | KeyEvent.nextPage =>
      if m.focus = Focus.list then { m with follow := false } else m
  | KeyEvent.prevPage =>
      if m.focus = Focus.list then { m with follow := false } else m
  | KeyEvent.goToStart =>
      if m.focus = Focus.list then { m with index := 0 } else m
  | KeyEvent.goToEnd =>
      if m.focus = Focus.list then { m with index := m.items.length - 1 } else m
  | KeyEvent.switchContentUp =>
      doSwitchContent E false (Model.cursorUp { m with follow := false })
  | KeyEvent.switchContentDown =>
      doSwitchContent E false (Model.cursorDown { m with follow := false })
  | KeyEvent.diffMode =>
      doSwitchContent E true { m with lineDiff := !m.lineDiff }
  | KeyEvent.toggleFollow =>
      let m' : Model := { m with follow := !m.follow }
      if m'.follow then
        let i := m'.index
        let m'' : Model := { m' with index := 0 }
        if m''.focus = Focus.pager ∧ i ≠ 0 then doSwitchContent E false m'' else m''
      else m'
  | KeyEvent.togglePause =>
      { m with paused := !m.paused, timer := timerToggle m.timer }
  | KeyEvent.switchFocus =>
      match m.focus with
      | Focus.list => doSwitchContent E false { m with focus := Focus.pager }
      | Focus.pager => { m with focus := Focus.list }
  | KeyEvent.quitKey => { m with quitReason := some QuitReason.user }

/-- One interval tick of the armed timer (`timer.TickMsg` then possibly
`timer.TimeoutMsg`, src/main.go:393-399): while running, the remaining time
decreases; on reaching zero the timeout event dispatches `m.runCmd`. -/
def tickStep (m : Model) : Model :=
  if m.timer.runningNow then
    let t' := m.timer.timeout - 1
    if t' = 0 then
      { m with timer := { m.timer with timeout := 0 }, inFlight := true }
    else
      { m with timer := { m.timer with timeout := t' } }
  else m

/-- External events delivered to `Update`: a key press, a timer tick, or the
completion message of the in-flight command. -/
inductive Event where
  | key (k : KeyEvent)
  | tick
  | cmdOut (out : String) (err : CmdErr)
deriving DecidableEq, Repr

/-- One dispatch of `Update` (src/main.go:366-413).  After `tea.Quit` has been
returned the bubbletea program stops delivering events, modelled by making the
quit state absorbing. -/
def step (E : DiffEngine) (m : Model) (e : Event) : Model :=
  if m.quitReason.isSome then m
  else
    match e with
    | Event.key k => handleKey E m k
    | Event.tick => tickStep m
    | Event.cmdOut out err => handleCmdCycle E m out err

/-- Run a sequence of events from a model. -/
def runEvents (E : DiffEngine) (m : Model) : List Event → Model
  | [] => m
  | e :: es => runEvents E (step E m e) es

/-- An event is deliverable in a state: a `cmdMsg` can only arrive while a
command is in flight (exactly one `runCmd` invocation is outstanding at a
time); ticks and keys can always arrive (a tick of a stopped timer is
ignored by `timer.Update`). -/
def validEvent (m : Model) : Event → Bool
  | Event.cmdOut _ _ => m.inFlight
  | _ => true

/-- A deliverable event trace from a given state. -/
def validTrace (E : DiffEngine) (m : Model) : List Event → Bool
  | [] => true
  | e :: es => validEvent m e && validTrace E (step E m e) es

/-- A trivial concrete diff backend used to instantiate witnesses: delete the
old text, insert the new one. -/
def simpleEngine : DiffEngine :=
  { diffLineOps := fun a b => [⟨DiffOp.DiffDelete, a⟩, ⟨DiffOp.DiffInsert, b⟩],
    diffCharOps := fun a b => [⟨DiffOp.DiffDelete, a⟩, ⟨DiffOp.DiffInsert, b⟩],
    prettyText := fun ds => String.join (ds.map Diff.text),
    levenshtein := fun ds => ds.length }

/-- A concrete diff backend whose line-mode and char-mode results differ, used
to exhibit the shared-counter overwrite. -/
def mixedEngine : DiffEngine :=
  { diffLineOps := fun _ _ => [⟨DiffOp.DiffInsert, "x"⟩],
    diffCharOps := fun _ _ => [⟨DiffOp.DiffInsert, "x"⟩, ⟨DiffOp.DiffInsert, "y"⟩],
    prettyText := fun ds => String.join (ds.map Diff.text),
    levenshtein := fun ds => ds.length }

/-! ## Classic (no-TUI) mode, `mainClassic` (src/main.go:792-821) -/

/-- Outcome of one `exec.Command(...).Output()` in classic mode.  On a launch
failure the captured output is empty and `c.ProcessState` is nil. -/
inductive CmdOutcome where
  | succeeded (out : String)
  | failedNonZero (out : String) (code : Int)
  | failedToLaunch
deriving DecidableEq, Repr

/-- The captured standard output printed and compared by the loop. -/
def outcomeOut : CmdOutcome → String
  | CmdOutcome.succeeded o => o
  | CmdOutcome.failedNonZero o _ => o
  | CmdOutcome.failedToLaunch => ""

/-- Whether `err != nil` after `Output()`. -/
def outcomeErr : CmdOutcome → Bool
  | CmdOutcome.succeeded _ => false
  | CmdOutcome.failedNonZero _ _ => true
  | CmdOutcome.failedToLaunch => true

/-- `c.ProcessState.ExitCode()`: the child's exit code, 0 on success, and -1
when the process never started (nil `ProcessState`). -/
def processStateExitCode : CmdOutcome → Int
  | CmdOutcome.succeeded _ => 0
  | CmdOutcome.failedNonZero _ c => c
  | CmdOutcome.failedToLaunch => -1

/-- One iteration of the `mainClassic` loop (src/main.go:794-820): `inl` is the
updated `prevOut` to continue with, `inr` an `os.Exit` status.  The errexit
check runs first (note it also catches launch failures, because it tests only
`err != nil && *flagErrExit`); then the chgexit check (against the previous
output, which is updated only afterwards). -/
def classicStep (errExit chgExit : Bool) (prevOut : Option String) (oc : CmdOutcome) :
    Option String ⊕ Int :=
  let outS := outcomeOut oc
  if outcomeErr oc = true ∧ errExit = true then Sum.inr (processStateExitCode oc)
  else if chgExit = true ∧ prevOut.isSome = true ∧ prevOut ≠ some outS then
    Sum.inr (processStateExitCode oc)
  else Sum.inl (some outS)

/-- Exit status of the TUI mode for an in-app quit (`mainTea`,
src/main.go:779-790, and `main`, src/main.go:843-893): `tea.Quit` makes
`Run` return without error, `mainTea` returns, and `main` falls off the end,
so the process exits with status 0 whatever the quit reason was;
`os.Exit(1)` there is reached only on a framework error from `Run`. -/
def mainTeaExitCode (_ : QuitReason) : Nat := 0

/-! ## Derived notions used by the statements -/

/-- The capture-relevant skeleton of a stored entry: its timestamp, its raw
content and its previous-capture link (forgetting the mutable diff caches). -/
def skel (p : Nat × HistoryEntry) : Nat × String × Option Nat :=
  (p.1, p.2.plain, p.2.prevT)

/-- Skeleton of the whole store. -/
def histSkel (h : List (Nat × HistoryEntry)) : List (Nat × String × Option Nat) :=
  h.map skel

/-- The stored contents, newest first. -/
def histPlains (h : List (Nat × HistoryEntry)) : List String :=
  h.map (fun p => p.2.plain)

/-- The store is a well-formed chain: `prevT` points at the newest entry of the
rest of the store, and the oldest entry has no predecessor.  `pt` is the
model's `prevT` (the key of the newest capture, if any). -/
inductive Chained : Option Nat → List (Nat × HistoryEntry) → Prop where
  | nil : Chained none []
  | cons (t : Nat) (e : HistoryEntry) (r : List (Nat × HistoryEntry)) :
      Chained e.prevT r → Chained (some t) ((t, e) :: r)

/-- The sequence of command outputs processed by the history store: fold the
command-completion handler over the outputs (with no execution error). -/
def processOutputs (E : DiffEngine) (m : Model) : List String → Model
  | [] => m
  | o :: os => processOutputs E (handleCmdCycle E m o CmdErr.noErr) os

/-- Traces avoiding the `g`/`G` (go-to-start / go-to-end) list keys. -/
def noGoTo : Event → Bool
  | Event.key KeyEvent.goToStart => false
  | Event.key KeyEvent.goToEnd => false
  | _ => true

/-- While following, the selection cursor sits on the newest (top) item. -/
def followAtTop (m : Model) : Prop := m.follow = true → m.index = 0

/-- Coupling of the pause flag and the timer: while paused the timer never
runs (so no timeout can dispatch a command), and while unpaused a stopped
timer is an expired one. -/
def pauseTimerInv (m : Model) : Prop :=
  (m.paused = true → m.timer.runningNow = false) ∧
  (m.paused = false → m.timer.running = true ∨ m.timer.timeout = 0)

/-! ## Store lemmas -/

theorem histFind_head (t : Nat) (e : HistoryEntry) (r : List (Nat × HistoryEntry)) :
    histFind ((t, e) :: r) t = some e := by
  simp [histFind]

theorem histLookup_head (t : Nat) (e : HistoryEntry) (r : List (Nat × HistoryEntry)) :
    histLookup ((t, e) :: r) t = e := by
  simp [histLookup, histFind_head]

theorem histUpdate_map_eq {γ : Type} (t : Nat) (f : HistoryEntry → HistoryEntry)
    (g : Nat × HistoryEntry → γ) (hg : ∀ k e, g (k, f e) = g (k, e)) :
    ∀ h : List (Nat × HistoryEntry), (histUpdate h t f).map g = h.map g := by
  intro h
  induction h with
  | nil => rfl
  | cons p r ih =>
      obtain ⟨k, e⟩ := p
      by_cases hk : k = t
      · simp only [histUpdate, if_pos hk, List.map_cons, ih, hg]
      · simp only [histUpdate, if_neg hk, List.map_cons, ih]

theorem histSkel_histUpdate (h : List (Nat × HistoryEntry)) (t : Nat)
    (f : HistoryEntry → HistoryEntry)
    (hf : ∀ e, (f e).plain = e.plain ∧ (f e).prevT = e.prevT) :
    histSkel (histUpdate h t f) = histSkel h := by
  exact histUpdate_map_eq t f skel (fun k e => by simp [skel, (hf e).1, (hf e).2]) h

theorem histPlains_of_skel (h₁ h₂ : List (Nat × HistoryEntry))
    (hs : histSkel h₁ = histSkel h₂) : histPlains h₁ = histPlains h₂ := by
  have p : ∀ h : List (Nat × HistoryEntry),
      histPlains h = (histSkel h).map (fun q => q.2.1) := by
    intro h
    simp [histPlains, histSkel, skel, List.map_map, Function.comp]
  rw [p h₁, p h₂, hs]

theorem skel_cons_decomp (h : List (Nat × HistoryEntry)) (t : Nat) (a : String)
    (pt : Option Nat) (s : List (Nat × String × Option Nat))
    (hs : histSkel h = (t, a, pt) :: s) :
    ∃ e r, h = (t, e) :: r ∧ e.plain = a ∧ e.prevT = pt ∧ histSkel r = s := by
  cases h with
  | nil => simp [histSkel] at hs
  | cons p r =>
      obtain ⟨k, e⟩ := p
      simp only [histSkel, List.map_cons, skel, List.cons.injEq, Prod.mk.injEq] at hs
      exact ⟨e, r, by rw [hs.1.1], hs.1.2.1, hs.1.2.2, hs.2⟩

theorem chained_of_skel (pt : Option Nat) (h₁ h₂ : List (Nat × HistoryEntry))
    (hs : histSkel h₁ = histSkel h₂) (hc : Chained pt h₁) : Chained pt h₂ := by
  induction hc generalizing h₂ with
  | nil =>
      cases h₂ with
      | nil => exact Chained.nil
      | cons p r => simp [histSkel] at hs
  | cons t e r _ ih =>
      cases h₂ with
      | nil => simp [histSkel] at hs
      | cons p₂ r₂ =>
          obtain ⟨k₂, e₂⟩ := p₂
          simp only [histSkel, List.map_cons, skel, List.cons.injEq, Prod.mk.injEq] at hs
          obtain ⟨⟨hk, _, hprev⟩, hrest⟩ := hs
          subst hk
          have := ih r₂ hrest
          rw [hprev] at this
          exact Chained.cons _ _ _ this

/-! ## Preservation lemmas for the event handlers -/

theorem afterErrChecks_core (m : Model) (isDiff : Bool) :
    (afterErrChecks m isDiff).hist = m.hist ∧
    (afterErrChecks m isDiff).prevT = m.prevT ∧
    (afterErrChecks m isDiff).items = m.items ∧
    (afterErrChecks m isDiff).index = m.index ∧
    (afterErrChecks m isDiff).seleT = m.seleT ∧
    (afterErrChecks m isDiff).pagerContent = m.pagerContent ∧
    (afterErrChecks m isDiff).follow = m.follow ∧
    (afterErrChecks m isDiff).paused = m.paused ∧
    (afterErrChecks m isDiff).clock = m.clock ∧
    (afterErrChecks m isDiff).inFlight = m.inFlight := by
  unfold afterErrChecks
  split_ifs <;> simp

theorem doSwitchContent_core (E : DiffEngine) (c : Bool) (m : Model) :
    histSkel (doSwitchContent E c m).hist = histSkel m.hist ∧
    (doSwitchContent E c m).prevT = m.prevT ∧
    (doSwitchContent E c m).index = m.index ∧
    (doSwitchContent E c m).follow = m.follow ∧
    (doSwitchContent E c m).paused = m.paused ∧
    (doSwitchContent E c m).timer = m.timer ∧
    (doSwitchContent E c m).clock = m.clock ∧
    (doSwitchContent E c m).inFlight = m.inFlight ∧
    (doSwitchContent E c m).interval = m.interval ∧
    (doSwitchContent E c m).errExit = m.errExit ∧
    (doSwitchContent E c m).chgExit = m.chgExit ∧
    (doSwitchContent E c m).lineDiff = m.lineDiff ∧
    (doSwitchContent E c m).items.length = m.items.length := by
  unfold doSwitchContent
  cases hg : m.items.get? m.index with
  | none => simp
  | some sli =>
      by_cases hsel : c = false ∧ m.seleT = some sli.t
      · simp [hsel]
      · simp only [if_neg hsel]
        cases hp : (histLookup m.hist sli.t).prevT with
        | none => simp
        | some pt =>
            by_cases hl : m.lineDiff = true
            · simp only [hl, if_true]
              cases hd : (histLookup m.hist sli.t).diffL with
              | some p => simp
              | none =>
                  simp only []
                  refine ⟨?_, by simp, by simp, by simp, by simp, by simp, by simp,
                    by simp, by simp, by simp, by simp, by simp, by simp [List.length_set]⟩
                  exact histSkel_histUpdate _ _ _ (fun e => ⟨rfl, rfl⟩)
            · simp only [hl, if_false]
              cases hd : (histLookup m.hist sli.t).diffC with
              | some p => simp
              | none =>
                  simp only []
                  refine ⟨?_, by simp, by simp, by simp, by simp, by simp, by simp,
                    by simp, by simp, by simp, by simp, by simp, by simp [List.length_set]⟩
                  exact histSkel_histUpdate _ _ _ (fun e => ⟨rfl, rfl⟩)

@[simp] theorem dsc_histSkel (E : DiffEngine) (c : Bool) (m : Model) :
    histSkel (doSwitchContent E c m).hist = histSkel m.hist :=
  (doSwitchContent_core E c m).1

@[simp] theorem dsc_map_skel (E : DiffEngine) (c : Bool) (m : Model) :
    List.map skel (doSwitchContent E c m).hist = List.map skel m.hist := by
  simpa [histSkel] using (doSwitchContent_core E c m).1

@[simp] theorem dsc_prevT (E : DiffEngine) (c : Bool) (m : Model) :
    (doSwitchContent E c m).prevT = m.prevT :=
  (doSwitchContent_core E c m).2.1

@[simp] theorem dsc_index (E : DiffEngine) (c : Bool) (m : Model) :
    (doSwitchContent E c m).index = m.index :=
  (doSwitchContent_core E c m).2.2.1

@[simp] theorem dsc_follow (E : DiffEngine) (c : Bool) (m : Model) :
    (doSwitchContent E c m).follow = m.follow :=
  (doSwitchContent_core E c m).2.2.2.1

@[simp] theorem dsc_paused (E : DiffEngine) (c : Bool) (m : Model) :
    (doSwitchContent E c m).paused = m.paused :=
  (doSwitchContent_core E c m).2.2.2.2.1

@[simp] theorem dsc_timer (E : DiffEngine) (c : Bool) (m : Model) :
    (doSwitchContent E c m).timer = m.timer :=
  (doSwitchContent_core E c m).2.2.2.2.2.1

@[simp] theorem dsc_clock (E : DiffEngine) (c : Bool) (m : Model) :
    (doSwitchContent E c m).clock = m.clock :=
  (doSwitchContent_core E c m).2.2.2.2.2.2.1

@[simp] theorem dsc_inFlight (E : DiffEngine) (c : Bool) (m : Model) :
    (doSwitchContent E c m).inFlight = m.inFlight :=
  (doSwitchContent_core E c m).2.2.2.2.2.2.2.1

@[simp] theorem dsc_interval (E : DiffEngine) (c : Bool) (m : Model) :
    (doSwitchContent E c m).interval = m.interval :=
  (doSwitchContent_core E c m).2.2.2.2.2.2.2.2.1

@[simp] theorem dsc_errExit (E : DiffEngine) (c : Bool) (m : Model) :
    (doSwitchContent E c m).errExit = m.errExit :=
  (doSwitchContent_core E c m).2.2.2.2.2.2.2.2.2.1

@[simp] theorem dsc_chgExit (E : DiffEngine) (c : Bool) (m : Model) :
    (doSwitchContent E c m).chgExit = m.chgExit :=
  (doSwitchContent_core E c m).2.2.2.2.2.2.2.2.2.2.1

@[simp] theorem dsc_lineDiff (E : DiffEngine) (c : Bool) (m : Model) :
    (doSwitchContent E c m).lineDiff = m.lineDiff :=
  (doSwitchContent_core E c m).2.2.2.2.2.2.2.2.2.2.2.1

@[simp] theorem dsc_items_length (E : DiffEngine) (c : Bool) (m : Model) :
    (doSwitchContent E c m).items.length = m.items.length :=
  (doSwitchContent_core E c m).2.2.2.2.2.2.2.2.2.2.2.2

@[simp] theorem afterErr_hist (m : Model) (d : Bool) :
    (afterErrChecks m d).hist = m.hist := (afterErrChecks_core m d).1

@[simp] theorem afterErr_prevT (m : Model) (d : Bool) :
    (afterErrChecks m d).prevT = m.prevT := (afterErrChecks_core m d).2.1

@[simp] theorem afterErr_items (m : Model) (d : Bool) :
    (afterErrChecks m d).items = m.items := (afterErrChecks_core m d).2.2.1

@[simp] theorem afterErr_index (m : Model) (d : Bool) :
    (afterErrChecks m d).index = m.index := (afterErrChecks_core m d).2.2.2.1

@[simp] theorem afterErr_seleT (m : Model) (d : Bool) :
    (afterErrChecks m d).seleT = m.seleT := (afterErrChecks_core m d).2.2.2.2.1

@[simp] theorem afterErr_pager (m : Model) (d : Bool) :
    (afterErrChecks m d).pagerContent = m.pagerContent :=
  (afterErrChecks_core m d).2.2.2.2.2.1

@[simp] theorem afterErr_follow (m : Model) (d : Bool) :
    (afterErrChecks m d).follow = m.follow := (afterErrChecks_core m d).2.2.2.2.2.2.1

@[simp] theorem afterErr_paused (m : Model) (d : Bool) :
    (afterErrChecks m d).paused = m.paused := (afterErrChecks_core m d).2.2.2.2.2.2.2.1

@[simp] theorem afterErr_clock (m : Model) (d : Bool) :
    (afterErrChecks m d).clock = m.clock := (afterErrChecks_core m d).2.2.2.2.2.2.2.2.1

@[simp] theorem afterErr_inFlight (m : Model) (d : Bool) :
    (afterErrChecks m d).inFlight = m.inFlight :=
  (afterErrChecks_core m d).2.2.2.2.2.2.2.2.2

theorem afterErr_quitReason (m : Model) (d : Bool) :
    (afterErrChecks m d).quitReason =
      if m.chgExit = true ∧ m.prevT.isSome = true ∧ d = true then
        some QuitReason.chgExitTrig
      else m.quitReason := by
  unfold afterErrChecks
  split_ifs <;> simp

@[simp] theorem errDispatch_hist (m : Model) (d : Bool) (e : CmdErr) :
    (errDispatch m d e).hist = m.hist := by
  unfold errDispatch
  cases e <;> dsimp only <;> first | (split_ifs <;> simp) | simp

@[simp] theorem errDispatch_prevT (m : Model) (d : Bool) (e : CmdErr) :
    (errDispatch m d e).prevT = m.prevT := by
  unfold errDispatch
  cases e <;> dsimp only <;> first | (split_ifs <;> simp) | simp

@[simp] theorem errDispatch_items (m : Model) (d : Bool) (e : CmdErr) :
    (errDispatch m d e).items = m.items := by
  unfold errDispatch
  cases e <;> dsimp only <;> first | (split_ifs <;> simp) | simp

@[simp] theorem errDispatch_index (m : Model) (d : Bool) (e : CmdErr) :
    (errDispatch m d e).index = m.index := by
  unfold errDispatch
  cases e <;> dsimp only <;> first | (split_ifs <;> simp) | simp

@[simp] theorem errDispatch_seleT (m : Model) (d : Bool) (e : CmdErr) :
    (errDispatch m d e).seleT = m.seleT := by
  unfold errDispatch
  cases e <;> dsimp only <;> first | (split_ifs <;> simp) | simp

@[simp] theorem errDispatch_pager (m : Model) (d : Bool) (e : CmdErr) :
    (errDispatch m d e).pagerContent = m.pagerContent := by
  unfold errDispatch
  cases e <;> dsimp only <;> first | (split_ifs <;> simp) | simp

@[simp] theorem errDispatch_follow (m : Model) (d : Bool) (e : CmdErr) :
    (errDispatch m d e).follow = m.follow := by
  unfold errDispatch
  cases e <;> dsimp only <;> first | (split_ifs <;> simp) | simp

@[simp] theorem errDispatch_paused (m : Model) (d : Bool) (e : CmdErr) :
    (errDispatch m d e).paused = m.paused := by
  unfold errDispatch
  cases e <;> dsimp only <;> first | (split_ifs <;> simp) | simp

@[simp] theorem errDispatch_clock (m : Model) (d : Bool) (e : CmdErr) :
    (errDispatch m d e).clock = m.clock := by
  unfold errDispatch
  cases e <;> dsimp only <;> first | (split_ifs <;> simp) | simp

@[simp] theorem errDispatch_inFlight (m : Model) (d : Bool) (e : CmdErr) :
    (errDispatch m d e).inFlight = m.inFlight := by
  unfold errDispatch
  cases e <;> dsimp only <;> first | (split_ifs <;> simp) | simp

theorem errDispatch_quitReason (m : Model) (d : Bool) (e : CmdErr) :
    (errDispatch m d e).quitReason =
      match e with
      | CmdErr.launchError => some QuitReason.launchFailure
      | CmdErr.exitError success =>
          if success = false ∧ m.errExit = true then some QuitReason.errExitTrig
          else (afterErrChecks m d).quitReason
      | CmdErr.noErr => (afterErrChecks m d).quitReason := by
  unfold errDispatch
  cases e <;> dsimp only <;> first | (split_ifs <;> simp) | simp

theorem doSwitchContent_seleT (E : DiffEngine) (c : Bool) (m : Model) (sli : ListItem)
    (hg : m.items.get? m.index = some sli) :
    (doSwitchContent E c m).seleT = some sli.t := by
  unfold doSwitchContent
  rw [hg]
  by_cases hsel : c = false ∧ m.seleT = some sli.t
  · obtain ⟨hc, hs⟩ := hsel
    simp [hc, hs]
  · simp only [if_neg hsel]
    cases hp : (histLookup m.hist sli.t).prevT with
    | none => simp
    | some pt =>
        by_cases hl : m.lineDiff = true
        · simp only [hl, if_true]
          cases hd : (histLookup m.hist sli.t).diffL <;> simp
        · simp only [hl, if_false]
          cases hd : (histLookup m.hist sli.t).diffC <;> simp

theorem doSwitchContent_quitReason (E : DiffEngine) (c : Bool) (m : Model)
    (h : m.items.get? m.index ≠ none) :
    (doSwitchContent E c m).quitReason = m.quitReason := by
  unfold doSwitchContent
  cases hg : m.items.get? m.index with
  | none => exact absurd hg h
  | some sli =>
      by_cases hsel : c = false ∧ m.seleT = some sli.t
      · simp [hsel]
      · simp only [if_neg hsel]
        cases hp : (histLookup m.hist sli.t).prevT with
        | none => simp
        | some pt =>
            by_cases hl : m.lineDiff = true
            · simp only [hl, if_true]
              cases hd : (histLookup m.hist sli.t).diffL <;> simp
            · simp only [hl, if_false]
              cases hd : (histLookup m.hist sli.t).diffC <;> simp

@[simp] theorem cmdCyclePre_paused (E : DiffEngine) (m : Model) (out : String) :
    (cmdCyclePre E m out).paused = m.paused := by
  unfold cmdCyclePre
  cases hp : m.prevT <;> by_cases hd : isDifferentOutput m out = true <;>
    by_cases hf : m.follow = true <;> simp [hp, hd, hf, Model.cursorDown]

@[simp] theorem cmdCyclePre_timer (E : DiffEngine) (m : Model) (out : String) :
    (cmdCyclePre E m out).timer = m.timer := by
  unfold cmdCyclePre
  cases hp : m.prevT <;> by_cases hd : isDifferentOutput m out = true <;>
    by_cases hf : m.follow = true <;> simp [hp, hd, hf, Model.cursorDown]

@[simp] theorem cmdCyclePre_interval (E : DiffEngine) (m : Model) (out : String) :
    (cmdCyclePre E m out).interval = m.interval := by
  unfold cmdCyclePre
  cases hp : m.prevT <;> by_cases hd : isDifferentOutput m out = true <;>
    by_cases hf : m.follow = true <;> simp [hp, hd, hf, Model.cursorDown]

@[simp] theorem cmdCyclePre_errExit (E : DiffEngine) (m : Model) (out : String) :
    (cmdCyclePre E m out).errExit = m.errExit := by
  unfold cmdCyclePre
  cases hp : m.prevT <;> by_cases hd : isDifferentOutput m out = true <;>
    by_cases hf : m.follow = true <;> simp [hp, hd, hf, Model.cursorDown]

@[simp] theorem cmdCyclePre_chgExit (E : DiffEngine) (m : Model) (out : String) :
    (cmdCyclePre E m out).chgExit = m.chgExit := by
  unfold cmdCyclePre
  cases hp : m.prevT <;> by_cases hd : isDifferentOutput m out = true <;>
    by_cases hf : m.follow = true <;> simp [hp, hd, hf, Model.cursorDown]

@[simp] theorem cmdCyclePre_follow (E : DiffEngine) (m : Model) (out : String) :
    (cmdCyclePre E m out).follow = m.follow := by
  unfold cmdCyclePre
  cases hp : m.prevT <;> by_cases hd : isDifferentOutput m out = true <;>
    by_cases hf : m.follow = true <;> simp [hp, hd, hf, Model.cursorDown]

@[simp] theorem cmdCyclePre_inFlight (E : DiffEngine) (m : Model) (out : String) :
    (cmdCyclePre E m out).inFlight = false := by
  unfold cmdCyclePre
  cases hp : m.prevT <;> by_cases hd : isDifferentOutput m out = true <;>
    by_cases hf : m.follow = true <;> simp [hp, hd, hf, Model.cursorDown]

@[simp] theorem cmdCyclePre_clock (E : DiffEngine) (m : Model) (out : String) :
    (cmdCyclePre E m out).clock = m.clock + 1 := by
  unfold cmdCyclePre
  cases hp : m.prevT <;> by_cases hd : isDifferentOutput m out = true <;>
    by_cases hf : m.follow = true <;> simp [hp, hd, hf, Model.cursorDown]

@[simp] theorem cmdCyclePre_quitReason (E : DiffEngine) (m : Model) (out : String)
    (hq : isDifferentOutput m out = true → m.follow = true →
      m.index ≤ m.items.length) :
    (cmdCyclePre E m out).quitReason = m.quitReason := by
  unfold cmdCyclePre
  cases hp : m.prevT <;> by_cases hd : isDifferentOutput m out = true <;>
    by_cases hf : m.follow = true <;>
      simp only [hp, hd, hf, if_true, if_false, Model.cursorDown] <;>
      first
      | rfl
      | (rw [doSwitchContent_quitReason]
         intro hnone
         rw [List.get?_eq_none] at hnone
         have h2 := hq hd hf
         simp at hnone
         omega)

theorem handleCmdCycle_skel_insert (E : DiffEngine) (m : Model) (out : String) (err : CmdErr)
    (h : isDifferentOutput m out = true) :
    histSkel (handleCmdCycle E m out err).hist = (m.clock, out, m.prevT) :: histSkel m.hist ∧
    (handleCmdCycle E m out err).prevT = some m.clock ∧
    (handleCmdCycle E m out err).follow = m.follow ∧
    (handleCmdCycle E m out err).paused = m.paused ∧
    (handleCmdCycle E m out err).clock = m.clock + 1 ∧
    (handleCmdCycle E m out err).inFlight = false ∧
    (m.follow = true → (handleCmdCycle E m out err).index = m.index) := by
  unfold handleCmdCycle cmdCyclePre
  simp only [h, if_true]
  cases hp : m.prevT <;>
    by_cases hf : m.follow = true <;>
      simp [hp, hf, Model.cursorDown, histSkel, skel, newHistoryEntry]

theorem isDifferentOutput_none (m : Model) (out : String) (hp : m.prevT = none) :
    isDifferentOutput m out = true := by
  unfold isDifferentOutput
  rw [hp]

theorem handleCmdCycle_dedup (E : DiffEngine) (m : Model) (out : String) (err : CmdErr)
    (h : isDifferentOutput m out = false) :
    (handleCmdCycle E m out err).hist = m.hist ∧
    (handleCmdCycle E m out err).prevT = m.prevT ∧
    (handleCmdCycle E m out err).items = m.items ∧
    (handleCmdCycle E m out err).index = m.index ∧
    (handleCmdCycle E m out err).seleT = m.seleT ∧
    (handleCmdCycle E m out err).pagerContent = m.pagerContent ∧
    (handleCmdCycle E m out err).follow = m.follow ∧
    (handleCmdCycle E m out err).paused = m.paused ∧
    (handleCmdCycle E m out err).clock = m.clock + 1 ∧
    (handleCmdCycle E m out err).inFlight = false := by
  cases hp : m.prevT with
  | none => rw [isDifferentOutput_none m out hp] at h; exact absurd h (by simp)
  | some t0 =>
      unfold handleCmdCycle cmdCyclePre
      simp [h, hp]

theorem handleCmdCycle_nofollow_insert (E : DiffEngine) (m : Model) (out : String)
    (err : CmdErr) (hf : m.follow = false) (hd : isDifferentOutput m out = true) :
    (handleCmdCycle E m out err).items
        = newListItem m.clock out.length (countNewlines out) :: m.items ∧
    (handleCmdCycle E m out err).index
        = (if m.index + 1 < m.items.length + 1 then m.index + 1 else m.index) ∧
    (m.prevT.isSome = true →
      (handleCmdCycle E m out err).seleT = m.seleT ∧
      (handleCmdCycle E m out err).pagerContent = m.pagerContent) := by
  unfold handleCmdCycle cmdCyclePre
  simp only [hd, if_true]
  cases hp : m.prevT <;> simp [hp, hf, Model.cursorDown]

theorem handleCmdCycle_follow_seleT (E : DiffEngine) (m : Model) (out : String)
    (err : CmdErr) (hf : m.follow = true) (hz : m.index = 0)
    (hd : isDifferentOutput m out = true) :
    (handleCmdCycle E m out err).seleT = some m.clock := by
  unfold handleCmdCycle cmdCyclePre
  simp only [hd, if_true]
  cases hp : m.prevT <;>
    · simp only [hp, hf, if_true, errDispatch_seleT]
      rw [doSwitchContent_seleT _ _ _ (newListItem m.clock out.length (countNewlines out))
        (by simp [hz])]
      simp [newListItem]

theorem handleKey_core (E : DiffEngine) (m : Model) (k : KeyEvent)
    (hk : k ≠ KeyEvent.togglePause) :
    histSkel (handleKey E m k).hist = histSkel m.hist ∧
    (handleKey E m k).paused = m.paused ∧
    (handleKey E m k).inFlight = m.inFlight ∧
    (handleKey E m k).timer = m.timer := by
  cases k with
  | togglePause => exact absurd rfl hk
  | navUp =>
      simp only [handleKey]
      split_ifs <;> simp [Model.cursorUp]
  | navDown =>
      simp only [handleKey]
      split_ifs <;> simp [Model.cursorDown]
  | nextPage =>
      simp only [handleKey]
      split_ifs <;> simp
  | prevPage =>
      simp only [handleKey]
      split_ifs <;> simp
  | goToStart =>
      simp only [handleKey]
      split_ifs <;> simp
  | goToEnd =>
      simp only [handleKey]
      split_ifs <;> simp
  | switchContentUp =>
      simp only [handleKey]
      simp [Model.cursorUp]
  | switchContentDown =>
      simp only [handleKey]
      simp [Model.cursorDown]
  | diffMode =>
      simp only [handleKey]
      simp
  | toggleFollow =>
      simp only [handleKey]
      split_ifs <;> simp
  | switchFocus =>
      simp only [handleKey]
      cases m.focus <;> simp
  | quitKey =>
      simp only [handleKey]
      simp

theorem tickStep_core (m : Model) :
    histSkel (tickStep m).hist = histSkel m.hist ∧
    (tickStep m).paused = m.paused ∧
    (tickStep m).follow = m.follow ∧
    (tickStep m).index = m.index ∧
    (tickStep m).quitReason = m.quitReason ∧
    ((tickStep m).inFlight = m.inFlight ∨
      ((tickStep m).inFlight = true ∧ m.timer.runningNow = true)) := by
  simp only [tickStep]
  split_ifs <;> simp_all

theorem step_followAtTop (E : DiffEngine) (m : Model) (e : Event)
    (hng : noGoTo e = true) (h : followAtTop m) : followAtTop (step E m e) := by
  unfold step
  by_cases hq : m.quitReason.isSome = true
  · simpa [hq] using h
  · simp only [hq, if_false, Bool.false_eq_true]
    cases e with
    | tick =>
        intro hf
        obtain ⟨-, -, hfl, hidx, -, -⟩ := tickStep_core m
        rw [hidx]
        exact h (hfl ▸ hf)
    | cmdOut out err =>
        intro hf
        by_cases hd : isDifferentOutput m out = true
        · obtain ⟨-, -, hfl, -, -, -, hidx⟩ := handleCmdCycle_skel_insert E m out err hd
          rw [hidx (hfl ▸ hf)]
          exact h (hfl ▸ hf)
        · rw [Bool.not_eq_true] at hd
          obtain ⟨-, -, -, hidx, -, -, hfl, -, -, -⟩ := handleCmdCycle_dedup E m out err hd
          rw [hidx]
          exact h (hfl ▸ hf)
    | key k =>
        cases k with
        | navUp =>
            simp only [handleKey]
            split_ifs <;> intro hf
            · simp [Model.cursorUp] at hf
            · exact h hf
        | navDown =>
            simp only [handleKey]
            split_ifs <;> intro hf
            · simp [Model.cursorDown] at hf
            · exact h hf
        | nextPage =>
            simp only [handleKey]
            split_ifs <;> intro hf
            · simp at hf
            · exact h hf
        | prevPage =>
            simp only [handleKey]
            split_ifs <;> intro hf
            · simp at hf
            · exact h hf
        | goToStart => simp [noGoTo] at hng
        | goToEnd => simp [noGoTo] at hng
        | switchContentUp =>
            simp only [handleKey]
            intro hf
            simp [Model.cursorUp] at hf
        | switchContentDown =>
            simp only [handleKey]
            intro hf
            simp [Model.cursorDown] at hf
        | diffMode =>
            simp only [handleKey]
            intro hf
            simp at hf
            simp [h hf]
        | toggleFollow =>
            simp only [handleKey]
            split_ifs with h1 h2 <;> intro hf <;> simp_all
        | togglePause =>
            simp only [handleKey]
            intro hf
            exact h hf
        | switchFocus =>
            simp only [handleKey]
            cases hfo : m.focus <;> intro hf
            · exact h hf
            · simp only [dsc_index, dsc_follow] at hf ⊢
              exact h hf
        | quitKey =>
            simp only [handleKey]
            intro hf
            exact h hf

theorem errDispatch_timer_cases (m : Model) (d : Bool) (e : CmdErr) :
    (errDispatch m d e).timer = m.timer ∨
      ((errDispatch m d e).timer = ⟨m.interval, true⟩ ∧ m.paused = false) := by
  unfold errDispatch afterErrChecks
  cases e <;> dsimp only <;> (try split_ifs) <;>
    first
    | (left; rfl)
    | (right; exact ⟨rfl, by assumption⟩)

theorem handleCmdCycle_pause_timer (E : DiffEngine) (m : Model) (out : String) (err : CmdErr) :
    (handleCmdCycle E m out err).paused = m.paused ∧
    ((handleCmdCycle E m out err).timer = m.timer ∨
      ((handleCmdCycle E m out err).timer = ⟨m.interval, true⟩ ∧ m.paused = false)) := by
  unfold handleCmdCycle
  constructor
  · rw [errDispatch_paused, cmdCyclePre_paused]
  · rcases errDispatch_timer_cases (cmdCyclePre E m out) (isDifferentOutput m out) err with
      ht | ⟨ht, hpf⟩
    · left
      rw [ht, cmdCyclePre_timer]
    · right
      rw [cmdCyclePre_paused] at hpf
      rw [ht, cmdCyclePre_interval]
      exact ⟨rfl, hpf⟩

theorem step_pauseTimerInv (E : DiffEngine) (m : Model) (e : Event)
    (h : pauseTimerInv m) : pauseTimerInv (step E m e) := by
  unfold step
  by_cases hq : m.quitReason.isSome = true
  · simpa [hq] using h
  · simp only [hq, if_false, Bool.false_eq_true]
    cases e with
    | cmdOut out err =>
        obtain ⟨hps, htc⟩ := handleCmdCycle_pause_timer E m out err
        constructor
        · intro hp
          rw [hps] at hp
          rcases htc with ht | ⟨ht, hpf⟩
          · rw [ht]
            exact h.1 hp
          · rw [hpf] at hp
            exact absurd hp (by simp)
        · intro hp
          rcases htc with ht | ⟨ht, hpf⟩
          · rw [hps] at hp
            rw [ht]
            exact h.2 hp
          · rw [ht]
            exact Or.inl rfl
    | tick =>
        simp only [tickStep]
        by_cases hr : m.timer.runningNow = true
        · have hpf : m.paused = false := by
            by_contra hc
            rw [Bool.not_eq_false] at hc
            rw [h.1 hc] at hr
            exact Bool.false_ne_true hr
          have hru : m.timer.running = true := by
            have h2 := hr
            unfold TimerModel.runningNow at h2
            rw [Bool.and_eq_true] at h2
            exact h2.1
          simp only [hr, if_true]
          split_ifs <;>
            exact ⟨by intro hp; rw [hpf] at hp; exact absurd hp (by simp),
                   fun _ => Or.inl hru⟩
        · simp only [hr]
          simpa using h
    | key k =>
        by_cases hk : k = KeyEvent.togglePause
        · subst hk
          simp only [handleKey]
          constructor
          · intro hp
            have hpf : m.paused = false := by
              by_contra hc
              rw [Bool.not_eq_false] at hc
              rw [hc] at hp
              exact absurd hp (by simp)
            rcases h.2 hpf with h3 | h3
            · show (timerToggle m.timer).runningNow = false
              unfold timerToggle TimerModel.runningNow
              rw [h3]
              cases hd : decide (0 < m.timer.timeout) <;> simp [hd]
            · show (timerToggle m.timer).runningNow = false
              unfold timerToggle TimerModel.runningNow
              rw [h3]
              simp
          · intro hp
            have hpt : m.paused = true := by
              by_contra hc
              rw [Bool.not_eq_true] at hc
              rw [hc] at hp
              exact absurd hp (by simp)
            left
            show (timerToggle m.timer).running = true
            unfold timerToggle
            rw [h.1 hpt]
            rfl
        · obtain ⟨hsk, hpz, hif, htm⟩ := handleKey_core E m k hk
          constructor
          · intro hp
            rw [htm]
            exact h.1 (hpz ▸ hp)
          · intro hp
            rw [htm]
            exact h.2 (hpz ▸ hp)


theorem destutterNe_cons_pos (a o : String) (l : List String) (h : a ≠ o) :
    List.destutter' (· ≠ ·) a (o :: l) = a :: List.destutter' (· ≠ ·) o l := by
  simp [List.destutter', h]

theorem destutterNe_cons_eq (o : String) (l : List String) :
    List.destutter' (· ≠ ·) o (o :: l) = List.destutter' (· ≠ ·) o l := by
  simp [List.destutter']

theorem isDifferentOutput_head (m : Model) (out : String) (t : Nat) (e : HistoryEntry)
    (r : List (Nat × HistoryEntry)) (hp : m.prevT = some t) (hh : m.hist = (t, e) :: r) :
    isDifferentOutput m out = (e.plain != out) := by
  unfold isDifferentOutput
  rw [hp, hh]
  show ((histLookup ((t, e) :: r) t).plain != out) = (e.plain != out)
  rw [histLookup_head]

theorem step_chained (E : DiffEngine) (m : Model) (out : String) (err : CmdErr)
    (hc : Chained m.prevT m.hist) :
    Chained (handleCmdCycle E m out err).prevT (handleCmdCycle E m out err).hist := by
  by_cases hd : isDifferentOutput m out = true
  · obtain ⟨hsk, hpv, -, -, -, -, -⟩ := handleCmdCycle_skel_insert E m out err hd
    obtain ⟨e2, r2, hsplit, hpl, hpr, hrest⟩ := skel_cons_decomp _ _ _ _ _ hsk
    rw [hpv, hsplit]
    apply Chained.cons
    rw [hpr]
    exact chained_of_skel _ _ _ hrest.symm hc
  · rw [Bool.not_eq_true] at hd
    obtain ⟨hh, hpv, -⟩ := handleCmdCycle_dedup E m out err hd
    rw [hh, hpv]
    exact hc

theorem processOutputs_chained (E : DiffEngine) (l : List String) :
    ∀ m : Model, Chained m.prevT m.hist →
      Chained (processOutputs E m l).prevT (processOutputs E m l).hist := by
  induction l with
  | nil => exact fun m hc => hc
  | cons o os ih => exact fun m hc => ih _ (step_chained E m o CmdErr.noErr hc)

theorem processOutputs_plains (E : DiffEngine) (l : List String) :
    ∀ (m : Model) (t : Nat) (e : HistoryEntry) (r : List (Nat × HistoryEntry)),
    m.prevT = some t → m.hist = (t, e) :: r →
    histPlains (processOutputs E m l).hist
      = (List.destutter' (· ≠ ·) e.plain l).reverse ++ histPlains r := by
  induction l with
  | nil =>
      intro m t e r hp hh
      simp [processOutputs, hh, histPlains]
  | cons o os ih =>
      intro m t e r hp hh
      by_cases heq : e.plain = o
      · have hd : isDifferentOutput m o = false := by
          rw [isDifferentOutput_head m o t e r hp hh, heq]
          simp
        obtain ⟨hh2, hp2, -⟩ := handleCmdCycle_dedup E m o CmdErr.noErr hd
        show histPlains (processOutputs E (handleCmdCycle E m o CmdErr.noErr) os).hist = _
        rw [heq, destutterNe_cons_eq]
        have := ih _ t e r (hp2.trans hp) (hh2.trans hh)
        rw [heq] at this
        exact this
      · have hd : isDifferentOutput m o = true := by
          rw [isDifferentOutput_head m o t e r hp hh]
          simp [heq]
        obtain ⟨hsk, hpv, -⟩ := handleCmdCycle_skel_insert E m o CmdErr.noErr hd
        obtain ⟨e2, r2, hsplit, hpl, hpr, hrest⟩ := skel_cons_decomp _ _ _ _ _ hsk
        have hplr : histPlains r2 = histPlains m.hist := histPlains_of_skel _ _ hrest
        show histPlains (processOutputs E (handleCmdCycle E m o CmdErr.noErr) os).hist = _
        rw [ih _ m.clock e2 r2 hpv hsplit, hpl, hplr, hh,
          destutterNe_cons_pos e.plain o os heq]
        simp [histPlains, List.reverse_cons]

theorem processOutputs_init_plains (E : DiffEngine) (cfg : Config) (outs : List String) :
    histPlains (processOutputs E (initModel cfg) outs).hist
      = (List.destutter (· ≠ ·) outs).reverse := by
  cases outs with
  | nil => rfl
  | cons o os =>
      have hd : isDifferentOutput (initModel cfg) o = true :=
        isDifferentOutput_none _ _ rfl
      obtain ⟨hsk, hpv, -⟩ :=
        handleCmdCycle_skel_insert E (initModel cfg) o CmdErr.noErr hd
      obtain ⟨e2, r2, hsplit, hpl, hpr, hrest⟩ := skel_cons_decomp _ _ _ _ _ hsk
      have hr2 : r2 = [] := by
        have : histSkel r2 = [] := by simpa [initModel, histSkel] using hrest
        simpa [histSkel] using this
      show histPlains (processOutputs E (handleCmdCycle E (initModel cfg) o CmdErr.noErr) os).hist = _
      rw [processOutputs_plains E os _ (initModel cfg).clock e2 r2 hpv hsplit, hpl, hr2,
        List.destutter_cons']
      simp [histPlains]


theorem histLookup_of_find (h : List (Nat × HistoryEntry)) (t : Nat) (e : HistoryEntry)
    (hf : histFind h t = some e) : histLookup h t = e := by
  simp [histLookup, hf]

theorem histFind_histUpdate_self (t : Nat) (f : HistoryEntry → HistoryEntry) :
    ∀ h : List (Nat × HistoryEntry),
      histFind (histUpdate h t f) t = (histFind h t).map f := by
  intro h
  induction h with
  | nil => rfl
  | cons p r ih =>
      obtain ⟨k, e⟩ := p
      by_cases hk : k = t
      · simp [histUpdate, histFind, hk]
      · simp [histUpdate, histFind, hk, ih]

/-! ## Concrete states and traces used by the counterexamples and witnesses -/

/-- A small mid-run state: one capture `"x"` stored at time 0, selection on it,
the next command in flight. -/
def mRun : Model :=
  { interval := 1, errExit := false, chgExit := false, lineDiff := true,
    follow := false, paused := false, focus := Focus.pager,
    hist := [(0, ⟨"x", none, none, none⟩)], prevT := some 0, seleT := some 0,
    items := [newListItem 0 1 0], index := 0, pagerContent := "x",
    timer := ⟨0, true⟩, clock := 1, inFlight := true, quitReason := none }

/-- Like `mRun` but with follow enabled and errexit set. -/
def mRunF : Model :=
  { mRun with follow := true, errExit := true }

/-- Like `mRun` but with chgexit set. -/
def mRunC : Model :=
  { mRun with chgExit := true }

/-! ## The claims -/

/-- C1: the claim says that with chgexit enabled the program terminates exactly
on the first output differing from its immediate predecessor and never on the
very first capture, so for outputs `["a","a","b"]` first upon `"b"`.  The TUI
code (`handleCmdCycle`) violates this: the chgexit check at src/main.go:570
reads `m.prevT` after the insertion block at src/main.go:546 has already
re-assigned it to the fresh capture, so the `m.prevT != nil` guard is always
true once anything was captured and the program quits with the output-changed
message already while processing the very first output `"a"`.  The classic
mode (`mainClassic`, src/main.go:812-817) checks before updating `prevOut` and
does implement the claimed behaviour, which confirms the intent.  This theorem
evaluates both on the failing input. -/
theorem C1_chgexit_first_capture_bug :
    (runEvents simpleEngine (initModel ⟨2, false, true⟩)
        [Event.cmdOut "a" CmdErr.noErr]).quitReason = some QuitReason.chgExitTrig ∧
    classicStep false true none (CmdOutcome.succeeded "a") = Sum.inl (some "a") := by
  exact ⟨rfl, rfl⟩

/-- C2: the history store keeps exactly one capture per maximal run of
byte-identical consecutive outputs, chained through `previous` references: the
final contents (newest first) are the adjacent-deduplication (`destutter`) of
the processed output sequence, reversed; the store is a well-formed chain; an
output equal to the newest capture's content is discarded with no change to
store, list, cursor, selection, or pager; a differing output is inserted as a
new capture whose `previous` reference is the previously newest capture. -/
theorem C2_store_dedup (E : DiffEngine) (cfg : Config) (outs : List String) :
    histPlains (processOutputs E (initModel cfg) outs).hist
        = (List.destutter (· ≠ ·) outs).reverse
    ∧ Chained (processOutputs E (initModel cfg) outs).prevT
        (processOutputs E (initModel cfg) outs).hist
    ∧ (∀ (m : Model) (out : String) (t : Nat) (e : HistoryEntry)
          (r : List (Nat × HistoryEntry)),
        m.prevT = some t → m.hist = (t, e) :: r → e.plain = out →
        (handleCmdCycle E m out CmdErr.noErr).hist = m.hist ∧
        (handleCmdCycle E m out CmdErr.noErr).prevT = m.prevT ∧
        (handleCmdCycle E m out CmdErr.noErr).items = m.items ∧
        (handleCmdCycle E m out CmdErr.noErr).index = m.index ∧
        (handleCmdCycle E m out CmdErr.noErr).seleT = m.seleT ∧
        (handleCmdCycle E m out CmdErr.noErr).pagerContent = m.pagerContent)
    ∧ (∀ (m : Model) (out : String) (t : Nat) (e : HistoryEntry)
          (r : List (Nat × HistoryEntry)),
        m.prevT = some t → m.hist = (t, e) :: r → e.plain ≠ out →
        histSkel (handleCmdCycle E m out CmdErr.noErr).hist
          = (m.clock, out, some t) :: histSkel m.hist ∧
        (handleCmdCycle E m out CmdErr.noErr).prevT = some m.clock) := by
  refine ⟨processOutputs_init_plains E cfg outs,
    processOutputs_chained E outs (initModel cfg) Chained.nil, ?_, ?_⟩
  · intro m out t e r hp hh heq
    have hd : isDifferentOutput m out = false := by
      rw [isDifferentOutput_head m out t e r hp hh, heq]
      simp
    obtain ⟨h1, h2, h3, h4, h5, h6, -⟩ := handleCmdCycle_dedup E m out CmdErr.noErr hd
    exact ⟨h1, h2, h3, h4, h5, h6⟩
  · intro m out t e r hp hh hne
    have hd : isDifferentOutput m out = true := by
      rw [isDifferentOutput_head m out t e r hp hh]
      simp [hne]
    obtain ⟨h1, h2, -⟩ := handleCmdCycle_skel_insert E m out CmdErr.noErr hd
    rw [hp] at h1
    exact ⟨h1, h2⟩

/-- C2 witness: the §8 scenario `["1","2","2","3"]` ends with three captures
`"3","2","1"` (newest first); a repeated `"x"` against `mRun` changes nothing;
a fresh `"y"` is inserted with `previous` = the old newest capture. -/
theorem C2_store_dedup_witness :
    histPlains (processOutputs simpleEngine (initModel ⟨1, false, false⟩)
        ["1", "2", "2", "3"]).hist = ["3", "2", "1"] ∧
    (handleCmdCycle simpleEngine mRun "x" CmdErr.noErr).hist = mRun.hist ∧
    histSkel (handleCmdCycle simpleEngine mRun "y" CmdErr.noErr).hist
      = (1, "y", some 0) :: histSkel mRun.hist := by
  refine ⟨?_, ?_, ?_⟩
  · rw [(C2_store_dedup simpleEngine ⟨1, false, false⟩ ["1", "2", "2", "3"]).1]
    decide
  · exact ((C2_store_dedup simpleEngine ⟨1, false, false⟩ []).2.2.1 mRun "x" 0
      ⟨"x", none, none, none⟩ [] rfl rfl rfl).1
  · exact ((C2_store_dedup simpleEngine ⟨1, false, false⟩ []).2.2.2 mRun "y" 0
      ⟨"x", none, none, none⟩ [] rfl rfl (by decide)).1

/-- C3 counterexample: the claim says a failure to launch the command
terminates the process regardless of the errexit and chgexit flags.  In
classic mode (`mainClassic`, src/main.go:802-810) the launch failure is only
examined under `err != nil && *flagErrExit`, so with errexit (and chgexit)
disabled the loop continues with the empty captured output instead of
terminating. -/
theorem C3_counterexample :
    classicStep false false (some "") CmdOutcome.failedToLaunch
      = Sum.inl (some "") := by
  rfl

/-- C3 as amended: in the TUI, a launch failure always quits, whatever the
flags; a non-zero exit quits exactly when errexit is enabled, and with errexit
(and chgexit) off the cycle continues and a differing output is still recorded
as a normal capture.  In classic mode, however, a launch failure terminates
only when errexit is enabled (and then with `os.Exit(-1)`, the nil
`ProcessState` exit code). -/
theorem C3_errexit_scope (E : DiffEngine) (m : Model) (out : String) :
    (handleCmdCycle E m out CmdErr.launchError).quitReason
        = some QuitReason.launchFailure
    ∧ (m.errExit = true →
        (handleCmdCycle E m out (CmdErr.exitError false)).quitReason
          = some QuitReason.errExitTrig)
    ∧ (m.errExit = false → m.chgExit = false → m.quitReason = none →
        m.index ≤ m.items.length →
        (handleCmdCycle E m out (CmdErr.exitError false)).quitReason = none)
    ∧ (isDifferentOutput m out = true →
        histSkel (handleCmdCycle E m out (CmdErr.exitError false)).hist
          = (m.clock, out, m.prevT) :: histSkel m.hist)
    ∧ (∀ prev : Option String,
        classicStep false false prev CmdOutcome.failedToLaunch = Sum.inl (some ""))
    ∧ (∀ (cg : Bool) (prev : Option String),
        classicStep true cg prev CmdOutcome.failedToLaunch = Sum.inr (-1)) := by
  refine ⟨?_, ?_, ?_, ?_, ?_, ?_⟩
  · unfold handleCmdCycle
    rw [errDispatch_quitReason]
  · intro hE
    unfold handleCmdCycle
    rw [errDispatch_quitReason]
    dsimp only
    rw [if_pos ⟨rfl, by rw [cmdCyclePre_errExit]; exact hE⟩]
  · intro hE hC hQ hI
    unfold handleCmdCycle
    rw [errDispatch_quitReason]
    dsimp only
    rw [if_neg (by rw [cmdCyclePre_errExit, hE]; simp), afterErr_quitReason,
      if_neg (by rw [cmdCyclePre_chgExit, hC]; simp),
      cmdCyclePre_quitReason E m out (fun _ _ => hI)]
    exact hQ
  · intro hd
    exact (handleCmdCycle_skel_insert E m out (CmdErr.exitError false) hd).1
  · intro prev
    rfl
  · intro cg prev
    rfl

/-- C3 witness: launch failure quits `mRun`; a non-zero exit quits `mRunF`
(errexit on) but not `mRun` (errexit off), where the differing output `"y"` is
still inserted; classic mode continues after a launch failure with the flags
off and exits with -1 with errexit on. -/
theorem C3_errexit_scope_witness :
    (handleCmdCycle simpleEngine mRun "x" CmdErr.launchError).quitReason
        = some QuitReason.launchFailure ∧
    (handleCmdCycle simpleEngine mRunF "x" (CmdErr.exitError false)).quitReason
        = some QuitReason.errExitTrig ∧
    (handleCmdCycle simpleEngine mRun "x" (CmdErr.exitError false)).quitReason = none ∧
    histSkel (handleCmdCycle simpleEngine mRun "y" (CmdErr.exitError false)).hist
        = (1, "y", some 0) :: histSkel mRun.hist ∧
    classicStep false false (some "a") CmdOutcome.failedToLaunch = Sum.inl (some "") ∧
    classicStep true true (some "a") CmdOutcome.failedToLaunch = Sum.inr (-1) := by
  refine ⟨(C3_errexit_scope simpleEngine mRun "x").1,
    (C3_errexit_scope simpleEngine mRunF "x").2.1 rfl,
    (C3_errexit_scope simpleEngine mRun "x").2.2.1 rfl rfl rfl (by decide),
    (C3_errexit_scope simpleEngine mRun "y").2.2.2.1 (by decide),
    (C3_errexit_scope simpleEngine mRun "x").2.2.2.2.1 (some "a"),
    (C3_errexit_scope simpleEngine mRun "x").2.2.2.2.2 true (some "a")⟩


/-- Events driving the C4 counterexample: first capture, one tick of the
2-tick interval, pause, resume. -/
def traceC4 : List Event :=
  [Event.cmdOut "a" CmdErr.noErr, Event.tick,
   Event.key KeyEvent.togglePause, Event.key KeyEvent.togglePause]

/-- C4 counterexample: the claim says that on every resume the next execution
fires only after a full fresh interval.  In the code, `p` merely calls
`m.timer.Toggle()` (src/main.go:501-505), which stops and restarts the bubbles
timer with its *remaining* timeout.  With interval 2, after one elapsed tick,
pause and resume leave a remainder of 1, and a single further tick (half the
interval) already dispatches the next execution. -/
theorem C4_counterexample :
    validTrace simpleEngine (initModel ⟨2, false, false⟩)
        (traceC4 ++ [Event.tick]) = true ∧
    (runEvents simpleEngine (initModel ⟨2, false, false⟩) traceC4).paused = false ∧
    (runEvents simpleEngine (initModel ⟨2, false, false⟩) traceC4).timer.timeout = 1 ∧
    (initModel ⟨2, false, false⟩).interval = 2 ∧
    (runEvents simpleEngine (initModel ⟨2, false, false⟩)
        (traceC4 ++ [Event.tick])).inFlight = true := by
  exact ⟨rfl, rfl, rfl, rfl, rfl⟩

/-- C4 as amended: while paused with no command in flight, every deliverable
event other than the pause toggle leaves the store unchanged (no capture is
recorded), keeps the scheduler paused and starts no execution; and the pause
toggle preserves the timer's remaining timeout, so resuming continues with the
remainder of the pre-pause interval rather than a full fresh one.  (A command
already in flight when pause was pressed still records its capture on
completion, which is why `inFlight = false` is required.)  The coupling
invariant `pauseTimerInv` holds initially and is preserved by every step. -/
theorem C4_pause_semantics (E : DiffEngine) (cfg : Config) (m : Model) (e : Event) :
    pauseTimerInv (initModel cfg)
    ∧ (pauseTimerInv m → pauseTimerInv (step E m e))
    ∧ (pauseTimerInv m → m.paused = true → m.inFlight = false →
        validEvent m e = true → e ≠ Event.key KeyEvent.togglePause →
        histSkel (step E m e).hist = histSkel m.hist ∧
        (step E m e).paused = true ∧
        (step E m e).inFlight = false)
    ∧ (handleKey E m KeyEvent.togglePause).timer.timeout = m.timer.timeout := by
  refine ⟨⟨fun h => by simp [initModel] at h, fun _ => Or.inr rfl⟩,
    step_pauseTimerInv E m e, ?_, ?_⟩
  · intro hinv hpz hif hv hne
    unfold step
    by_cases hq : m.quitReason.isSome = true
    · rw [if_pos hq]
      exact ⟨rfl, hpz, hif⟩
    · simp only [hq, if_false, Bool.false_eq_true]
      cases e with
      | cmdOut out err =>
          rw [show validEvent m (Event.cmdOut out err) = m.inFlight from rfl, hif] at hv
          exact absurd hv (by simp)
      | tick =>
          have hr : m.timer.runningNow = false := hinv.1 hpz
          obtain ⟨hsk, hps, -, -, -, hif2⟩ := tickStep_core m
          refine ⟨hsk, hps.trans hpz, ?_⟩
          rcases hif2 with h2 | ⟨-, h3⟩
          · exact h2.trans hif
          · rw [h3] at hr
            exact absurd hr (by simp)
      | key k =>
          have hk : k ≠ KeyEvent.togglePause := by
            intro hc
            exact hne (by rw [hc])
          obtain ⟨hsk, hps, hif2, -⟩ := handleKey_core E m k hk
          exact ⟨hsk, hps.trans hpz, hif2.trans hif⟩
  · simp [handleKey, timerToggle]

/-- C4 witness: evaluated on the paused state reached by `traceC4`'s prefix
(capture, tick, pause): a tick while paused with nothing in flight changes no
state; the resume toggle keeps the remaining timeout 1 instead of restoring
the full interval 2. -/
theorem C4_pause_semantics_witness :
    pauseTimerInv (runEvents simpleEngine (initModel ⟨2, false, false⟩)
        [Event.cmdOut "a" CmdErr.noErr, Event.tick, Event.key KeyEvent.togglePause]) ∧
    (step simpleEngine (runEvents simpleEngine (initModel ⟨2, false, false⟩)
        [Event.cmdOut "a" CmdErr.noErr, Event.tick, Event.key KeyEvent.togglePause])
        Event.tick).paused = true ∧
    (handleKey simpleEngine (runEvents simpleEngine (initModel ⟨2, false, false⟩)
        [Event.cmdOut "a" CmdErr.noErr, Event.tick, Event.key KeyEvent.togglePause])
        KeyEvent.togglePause).timer.timeout = 1 := by
  refine ⟨⟨fun _ => by decide, fun h => absurd h (by decide)⟩, ?_, ?_⟩
  · exact ((C4_pause_semantics simpleEngine ⟨2, false, false⟩
      (runEvents simpleEngine (initModel ⟨2, false, false⟩)
        [Event.cmdOut "a" CmdErr.noErr, Event.tick, Event.key KeyEvent.togglePause])
      Event.tick).2.2.1 ⟨fun _ => by decide, fun h => absurd h (by decide)⟩
      (by decide) (by decide) (by decide) (by decide)).2.1
  · exact ((C4_pause_semantics simpleEngine ⟨2, false, false⟩
      (runEvents simpleEngine (initModel ⟨2, false, false⟩)
        [Event.cmdOut "a" CmdErr.noErr, Event.tick, Event.key KeyEvent.togglePause])
      Event.tick).2.2.2).trans (by decide)

/-- C5 counterexample: the claim says the process exit code is non-zero (1)
whenever termination is caused by a chgexit (or errexit) trigger.  In TUI mode
the triggers merely return `tea.Quit`; `Run` then returns without error and
`mainTea`/`main` (src/main.go:779-790, 843-893) fall through with no
`os.Exit`, so the process exits 0.  Here a genuine chgexit trigger fires from
a state that already holds a previous capture, and the exit status is 0. -/
theorem C5_counterexample :
    (handleCmdCycle simpleEngine mRunC "b" CmdErr.noErr).quitReason
        = some QuitReason.chgExitTrig ∧
    mainTeaExitCode QuitReason.chgExitTrig = 0 ∧
    mainTeaExitCode QuitReason.errExitTrig = 0 ∧
    mainTeaExitCode QuitReason.launchFailure = 0 := by
  exact ⟨rfl, rfl, rfl, rfl⟩

/-- C5 as amended: a TUI in-app quit always exits with status 0, including
errexit, chgexit and launch-failure terminations (they print to stderr only);
classic mode exits with the child's own exit code on an errexit trigger, with
the child's exit code 0 on a chgexit trigger after a successful command, and
with -1 on a launch failure when errexit is set. -/
theorem C5_exit_codes :
    (∀ r : QuitReason, mainTeaExitCode r = 0)
    ∧ (∀ (cg : Bool) (prev : Option String) (out : String) (code : Int),
        classicStep true cg prev (CmdOutcome.failedNonZero out code) = Sum.inr code)
    ∧ (∀ p out : String, p ≠ out →
        classicStep false true (some p) (CmdOutcome.succeeded out) = Sum.inr 0)
    ∧ (∀ (cg : Bool) (prev : Option String),
        classicStep true cg prev CmdOutcome.failedToLaunch = Sum.inr (-1)) := by
  refine ⟨fun r => rfl, fun cg prev out code => rfl, ?_, fun cg prev => rfl⟩
  intro p out hne
  unfold classicStep
  rw [if_neg (by simp [outcomeErr])]
  rw [if_pos (⟨rfl, rfl, by simp [outcomeOut]; exact hne⟩ :
    true = true ∧ (some p).isSome = true ∧
      some p ≠ some (outcomeOut (CmdOutcome.succeeded out)))]
  rfl

/-- C5 witness: every quit reason exits 0 in the TUI; classic errexit exits
with the child code 3; classic chgexit exits 0 for `"a" → "b"`; classic launch
failure under errexit exits -1. -/
theorem C5_exit_codes_witness :
    mainTeaExitCode QuitReason.user = 0 ∧
    classicStep true false (some "a") (CmdOutcome.failedNonZero "b" 3) = Sum.inr 3 ∧
    classicStep false true (some "a") (CmdOutcome.succeeded "b") = Sum.inr 0 ∧
    classicStep true false none CmdOutcome.failedToLaunch = Sum.inr (-1) := by
  exact ⟨C5_exit_codes.1 QuitReason.user,
    C5_exit_codes.2.1 false (some "a") "b" 3,
    C5_exit_codes.2.2.1 "a" "b" (by decide),
    C5_exit_codes.2.2.2 false none⟩

/-- Events driving the C6 counterexample: two captures arrive while following,
focus moves to the list, `G` (go-to-end) moves the cursor without touching
`follow`, then a third capture arrives. -/
def traceC6 : List Event :=
  [Event.cmdOut "a" CmdErr.noErr, Event.tick, Event.cmdOut "b" CmdErr.noErr,
   Event.key KeyEvent.switchFocus, Event.key KeyEvent.goToEnd, Event.tick,
   Event.cmdOut "c" CmdErr.noErr]

/-- C6 counterexample: the claim says that whenever `follow` is true, after
every history store insertion the displayed capture equals the newly inserted
one.  `handleKey` (src/main.go:457-460) disables `follow` for cursor up/down
and page moves only; the `g`/`G` go-to-start/go-to-end list keys fall through
to the embedded list and move the cursor with `follow` left true.  After `G`
and a third capture, `follow` is still true, the newest capture is the one
stamped 2, but the displayed capture (`seleT`) is still the one stamped 1. -/
theorem C6_counterexample :
    validTrace simpleEngine (initModel ⟨1, false, false⟩) traceC6 = true ∧
    (runEvents simpleEngine (initModel ⟨1, false, false⟩) traceC6).follow = true ∧
    (runEvents simpleEngine (initModel ⟨1, false, false⟩) traceC6).prevT = some 2 ∧
    (runEvents simpleEngine (initModel ⟨1, false, false⟩) traceC6).seleT = some 1 := by
  exact ⟨rfl, rfl, rfl, rfl⟩

/-- C6 as amended: the follow invariant holds with the cursor at the top:
initially the cursor is at the top; every event other than go-to-start /
go-to-end keeps "follow implies cursor at top" invariant; from any such state
an insertion makes the displayed capture the newly inserted one; cursor
up/down and page moves with the list focussed, and the switch-content keys
always, set `follow` to false; and with `follow` false an insertion leaves the
displayed capture untouched.  The go-to keys break the invariant (see the
counterexample). -/
theorem C6_follow_invariant (E : DiffEngine) (cfg : Config) (m : Model) (out : String)
    (err : CmdErr) (e : Event) :
    followAtTop (initModel cfg)
    ∧ (noGoTo e = true → followAtTop m → followAtTop (step E m e))
    ∧ (m.follow = true → m.index = 0 → isDifferentOutput m out = true →
        (handleCmdCycle E m out err).seleT = some m.clock ∧
        (handleCmdCycle E m out err).prevT = some m.clock)
    ∧ (m.focus = Focus.list →
        (handleKey E m KeyEvent.navUp).follow = false ∧
        (handleKey E m KeyEvent.navDown).follow = false ∧
        (handleKey E m KeyEvent.nextPage).follow = false ∧
        (handleKey E m KeyEvent.prevPage).follow = false)
    ∧ ((handleKey E m KeyEvent.switchContentUp).follow = false ∧
       (handleKey E m KeyEvent.switchContentDown).follow = false)
    ∧ (m.follow = false → m.prevT.isSome = true →
        (handleCmdCycle E m out err).seleT = m.seleT ∧
        (handleCmdCycle E m out err).pagerContent = m.pagerContent) := by
  refine ⟨fun _ => rfl, fun hng h => step_followAtTop E m e hng h, ?_, ?_, ?_, ?_⟩
  · intro hf hz hd
    exact ⟨handleCmdCycle_follow_seleT E m out err hf hz hd,
      (handleCmdCycle_skel_insert E m out err hd).2.1⟩
  · intro hfoc
    refine ⟨?_, ?_, ?_, ?_⟩ <;> simp [handleKey, hfoc, Model.cursorUp, Model.cursorDown]
  · constructor <;> simp [handleKey, Model.cursorUp, Model.cursorDown]
  · intro hf hp
    by_cases hd : isDifferentOutput m out = true
    · exact (handleCmdCycle_nofollow_insert E m out err hf hd).2.2 hp
    · rw [Bool.not_eq_true] at hd
      obtain ⟨-, -, -, -, h5, h6, -⟩ := handleCmdCycle_dedup E m out err hd
      exact ⟨h5, h6⟩

/-- C6 witness: evaluated on `mRunF` (follow on, cursor at top) inserting
`"y"`, on `mRun` (follow off) inserting `"y"`, and on a list-focussed state
for the navigation keys. -/
theorem C6_follow_invariant_witness :
    (handleCmdCycle simpleEngine mRunF "y" CmdErr.noErr).seleT = some 1 ∧
    (handleKey simpleEngine { mRun with focus := Focus.list }
        KeyEvent.navUp).follow = false ∧
    (handleKey simpleEngine mRun KeyEvent.switchContentDown).follow = false ∧
    (handleCmdCycle simpleEngine mRun "y" CmdErr.noErr).seleT = mRun.seleT ∧
    followAtTop (initModel ⟨1, false, false⟩) := by
  refine ⟨?_, ?_, ?_, ?_, ?_⟩
  · exact ((C6_follow_invariant simpleEngine ⟨1, false, false⟩ mRunF "y" CmdErr.noErr
      Event.tick).2.2.1 rfl rfl (by decide)).1
  · exact ((C6_follow_invariant simpleEngine ⟨1, false, false⟩
      { mRun with focus := Focus.list } "y" CmdErr.noErr Event.tick).2.2.2.1 rfl).1
  · exact (C6_follow_invariant simpleEngine ⟨1, false, false⟩ mRun "y" CmdErr.noErr
      Event.tick).2.2.2.2.1.2
  · exact ((C6_follow_invariant simpleEngine ⟨1, false, false⟩ mRun "y" CmdErr.noErr
      Event.tick).2.2.2.2.2 rfl rfl).1
  · exact (C6_follow_invariant simpleEngine ⟨1, false, false⟩ mRun "y" CmdErr.noErr
      Event.tick).1


/-- A two-capture state (`"x"` at time 0, `"y"` at time 1, chained), with the
newest capture's cached line diff `dl` and the cursor at `i`. -/
def mTwoAt (dl : Option String) (i : Nat) : Model :=
  { interval := 1, errExit := false, chgExit := false, lineDiff := true,
    follow := true, paused := false, focus := Focus.pager,
    hist := [(1, ⟨"y", none, dl, some 0⟩), (0, ⟨"x", none, none, none⟩)],
    prevT := some 1, seleT := some 1,
    items := [newListItem 1 1 0, newListItem 0 1 0], index := i,
    pagerContent := "y", timer := ⟨0, true⟩, clock := 2, inFlight := false,
    quitReason := none }

/-- Events of the C7 counterexample before any mode switch: two captures with
follow on, so the line diff of the newest capture is computed and cached. -/
def traceC7a : List Event :=
  [Event.cmdOut "a" CmdErr.noErr, Event.tick, Event.cmdOut "b" CmdErr.noErr]

/-- The same, followed by two presses of `d`: switch to char mode (computing
and caching the char diff), then back to line mode (served from the cache). -/
def traceC7b : List Event :=
  traceC7a ++ [Event.key KeyEvent.diffMode, Event.key KeyEvent.diffMode]

/-- C7 counterexample: the claim says the DiffArtifact of a `(Capture, mode)`
pair — prettyText *and* counters — is cached and that repeated requests return
identical counters, the second mode's artifact never overwriting the first.
The pretty texts are indeed cached per mode (`diffL`/`diffC`), but the
counters live once per list item (`listItem.update` via `SetItem`,
src/main.go:618-619 and 629-630) and are overwritten whenever the *other*
mode's diff is first computed.  With `mixedEngine` (line diff has 1 insert
run, char diff 2), the first line-mode request records `additions = 1`; after
switching to char mode and back, the line-mode prettyText is served from the
cache unchanged ("x") but the displayed counters are now the char-mode ones
(`additions = 2`). -/
theorem C7_counterexample :
    validTrace mixedEngine (initModel ⟨1, false, false⟩) traceC7b = true ∧
    ((runEvents mixedEngine (initModel ⟨1, false, false⟩) traceC7a).items.get? 0).map
        (fun i => i.additions) = some (some 1) ∧
    (runEvents mixedEngine (initModel ⟨1, false, false⟩) traceC7b).lineDiff = true ∧
    (runEvents mixedEngine (initModel ⟨1, false, false⟩) traceC7b).pagerContent = "x" ∧
    ((runEvents mixedEngine (initModel ⟨1, false, false⟩) traceC7b).items.get? 0).map
        (fun i => i.additions) = some (some 2) := by
  exact ⟨rfl, rfl, rfl, rfl, rfl⟩

/-- C7 as amended: the pretty diff of each `(Capture, mode)` pair is computed
at most once and cached independently per mode for the lifetime of the
capture: a cached request returns the stored text and changes neither store
nor items; a first request computes, displays and caches the text and sets the
item's counters; computing the other mode's text caches it in its own slot and
leaves the first mode's cached text intact.  (The counters, stored once per
item, are overwritten on a first computation in the other mode — see the
counterexample; that is the part of the original claim that fails.) -/
theorem C7_diff_cache (E : DiffEngine) (m : Model) (sli : ListItem) (e : HistoryEntry)
    (pt : Nat) (p : String)
    (hg : m.items.get? m.index = some sli)
    (he : histFind m.hist sli.t = some e)
    (hpt : e.prevT = some pt) :
    (m.lineDiff = true → e.diffL = some p →
      (doSwitchContent E true m).pagerContent = p ∧
      (doSwitchContent E true m).hist = m.hist ∧
      (doSwitchContent E true m).items = m.items)
    ∧ (m.lineDiff = true → e.diffL = none →
        (doSwitchContent E true m).pagerContent
          = E.prettyText (E.diffLineOps (histLookup m.hist pt).plain e.plain) ∧
        histFind (doSwitchContent E true m).hist sli.t
          = some { e with diffL := some (E.prettyText (E.diffLineOps (histLookup m.hist pt).plain e.plain)) } ∧
        (doSwitchContent E true m).items
          = m.items.set m.index
              (listItemUpdate E sli
                (E.diffLineOps (histLookup m.hist pt).plain e.plain)))
    ∧ (m.lineDiff = false → e.diffL = some p → e.diffC = none →
        histFind (doSwitchContent E true m).hist sli.t
          = some { e with diffC := some (E.prettyText (E.diffCharOps (histLookup m.hist pt).plain e.plain)) } ∧
        ({ e with diffC := some (E.prettyText (E.diffCharOps (histLookup m.hist pt).plain e.plain)) }).diffL
          = some p) := by
  have hL : histLookup m.hist sli.t = e := histLookup_of_find _ _ _ he
  refine ⟨?_, ?_, ?_⟩
  · intro hld hc
    unfold doSwitchContent
    rw [hg]
    dsimp only
    rw [if_neg (by simp), hL, hpt]
    dsimp only
    rw [hld, if_pos rfl, hc]
    exact ⟨rfl, rfl, rfl⟩
  · intro hld hc
    unfold doSwitchContent
    rw [hg]
    dsimp only
    rw [if_neg (by simp), hL, hpt]
    dsimp only
    rw [hld, if_pos rfl, hc]
    dsimp only
    refine ⟨rfl, ?_, rfl⟩
    rw [histFind_histUpdate_self, he]
    simp [hpt]
  · intro hld hcl hcc
    unfold doSwitchContent
    rw [hg]
    dsimp only
    rw [if_neg (by simp), hL, hpt]
    dsimp only
    rw [hld, if_neg (by simp), hcc]
    dsimp only
    refine ⟨?_, hcl⟩
    rw [histFind_histUpdate_self, he]
    simp [hpt]

/-- C7 witness: evaluated on the two-capture state `mTwoAt`: a cached line
diff is returned untouched; a first line computation deposits the cache. -/
theorem C7_diff_cache_witness :
    (doSwitchContent simpleEngine true (mTwoAt (some "cached") 0)).pagerContent
        = "cached" ∧
    histFind (doSwitchContent simpleEngine true (mTwoAt none 0)).hist 1
      = some ⟨"y", none, some "xy", some 0⟩ := by
  constructor
  · exact ((C7_diff_cache simpleEngine (mTwoAt (some "cached") 0) (newListItem 1 1 0)
      ⟨"y", none, some "cached", some 0⟩ 0 "cached" rfl rfl rfl).1 rfl rfl).1
  · exact (((C7_diff_cache simpleEngine (mTwoAt none 0) (newListItem 1 1 0)
      ⟨"y", none, none, some 0⟩ 0 "unused" rfl rfl rfl).2.1 rfl rfl).2.1).trans rfl

/-- Events of the C8 counterexample: two captures, then step the shown content
down to the oldest capture. -/
def traceC8 : List Event :=
  [Event.cmdOut "a" CmdErr.noErr, Event.tick, Event.cmdOut "b" CmdErr.noErr,
   Event.key KeyEvent.switchContentDown]

/-- C8 counterexample: the claim says that for a capture with no predecessor
the diff artifact has `prettyText` equal to the raw content and all counters
*zero*.  The raw-content part holds, but `doSwitchContent`
(src/main.go:605-608) never computes anything for the oldest capture, so the
item's counters remain unset (`nil`, rendered `n/a` by `intp2String`,
src/main.go:336-339, 905-910) — not zero. -/
theorem C8_counterexample :
    (runEvents simpleEngine (initModel ⟨1, false, false⟩) traceC8).pagerContent = "a" ∧
    ((runEvents simpleEngine (initModel ⟨1, false, false⟩) traceC8).items.get? 1).map
        (fun i => (i.levDist, i.additions, i.deletions))
      = some (none, none, none) ∧
    (some ((none : Option Nat), (none : Option Nat), (none : Option Nat))
      ≠ some (some 0, some 0, some 0)) := by
  exact ⟨rfl, rfl, by decide⟩

/-- C8 as amended: selecting a capture whose `previous` reference is none
shows the raw content unmodified, computes and stores no diff artifact, and
leaves the list items — hence their (unset) counters — untouched. -/
theorem C8_oldest_degenerate (E : DiffEngine) (m : Model) (sli : ListItem)
    (e : HistoryEntry)
    (hg : m.items.get? m.index = some sli)
    (he : histFind m.hist sli.t = some e)
    (hpt : e.prevT = none)
    (hsel : m.seleT ≠ some sli.t) :
    (doSwitchContent E false m).pagerContent = e.plain ∧
    (doSwitchContent E false m).hist = m.hist ∧
    (doSwitchContent E false m).items = m.items ∧
    (doSwitchContent E false m).seleT = some sli.t := by
  have hL : histLookup m.hist sli.t = e := histLookup_of_find _ _ _ he
  unfold doSwitchContent
  rw [hg]
  dsimp only
  rw [if_neg (by simp [hsel]), hL, hpt]
  exact ⟨rfl, rfl, rfl, rfl⟩

/-- C8 witness: selecting the oldest capture of the two-capture store shows
its raw text `"x"` and changes nothing else. -/
theorem C8_oldest_degenerate_witness :
    (doSwitchContent simpleEngine false (mTwoAt none 1)).pagerContent = "x" ∧
    (doSwitchContent simpleEngine false (mTwoAt none 1)).items
      = (mTwoAt none 1).items := by
  obtain ⟨h1, -, h3, -⟩ := C8_oldest_degenerate simpleEngine (mTwoAt none 1)
    (newListItem 0 1 0) ⟨"x", none, none, none⟩ rfl rfl rfl (by decide)
  exact ⟨h1, h3⟩

/-- Events of the C9 counterexample: the command prints `"x"` successfully,
then prints `"x"` again but exits non-zero with errexit enabled. -/
def traceC9 : List Event :=
  [Event.cmdOut "x" CmdErr.noErr, Event.tick,
   Event.cmdOut "x" (CmdErr.exitError false)]

/-- C9 counterexample: the claim says the output triggering an errexit
termination is always first inserted into the history store as a new Capture.
When the failing command's output is byte-identical to the newest capture, the
dedup branch of `handleCmdCycle` (src/main.go:536-555) skips the insertion and
the errexit branch then quits: the store still holds only the one original
capture. -/
theorem C9_counterexample :
    validTrace simpleEngine (initModel ⟨1, true, false⟩) traceC9 = true ∧
    (runEvents simpleEngine (initModel ⟨1, true, false⟩) traceC9).quitReason
        = some QuitReason.errExitTrig ∧
    (runEvents simpleEngine (initModel ⟨1, true, false⟩) traceC9).hist.length = 1 := by
  exact ⟨rfl, rfl, rfl⟩

/-- C9 as amended: an output that triggers termination is first inserted as a
new Capture whenever it differs from the newest stored capture — which is
always the case for a chgexit trigger, and the usual case for an errexit
trigger; an errexit-triggering output byte-identical to the newest capture is
deduplicated instead (no new Capture, but its content is already the newest
entry of the history). -/
theorem C9_trigger_capture (E : DiffEngine) (m : Model) (out : String) (t : Nat)
    (e : HistoryEntry) (r : List (Nat × HistoryEntry))
    (hp : m.prevT = some t) (hh : m.hist = (t, e) :: r) :
    (m.chgExit = true → e.plain ≠ out →
      (handleCmdCycle E m out CmdErr.noErr).quitReason = some QuitReason.chgExitTrig ∧
      histSkel (handleCmdCycle E m out CmdErr.noErr).hist
        = (m.clock, out, some t) :: histSkel m.hist)
    ∧ (m.errExit = true → e.plain ≠ out →
        (handleCmdCycle E m out (CmdErr.exitError false)).quitReason
          = some QuitReason.errExitTrig ∧
        histSkel (handleCmdCycle E m out (CmdErr.exitError false)).hist
          = (m.clock, out, some t) :: histSkel m.hist)
    ∧ (m.errExit = true → e.plain = out →
        (handleCmdCycle E m out (CmdErr.exitError false)).quitReason
          = some QuitReason.errExitTrig ∧
        (handleCmdCycle E m out (CmdErr.exitError false)).hist = m.hist) := by
  refine ⟨?_, ?_, ?_⟩
  · intro hC hne
    have hd : isDifferentOutput m out = true := by
      rw [isDifferentOutput_head m out t e r hp hh]
      simp [hne]
    have hpre : (cmdCyclePre E m out).prevT = some m.clock := by
      have h2 := (handleCmdCycle_skel_insert E m out CmdErr.noErr hd).2.1
      unfold handleCmdCycle at h2
      rwa [errDispatch_prevT] at h2
    constructor
    · unfold handleCmdCycle
      rw [errDispatch_quitReason]
      dsimp only
      rw [afterErr_quitReason,
        if_pos ⟨by rw [cmdCyclePre_chgExit]; exact hC, by rw [hpre]; rfl, hd⟩]
    · have h1 := (handleCmdCycle_skel_insert E m out CmdErr.noErr hd).1
      rw [hp] at h1
      exact h1
  · intro hE hne
    have hd : isDifferentOutput m out = true := by
      rw [isDifferentOutput_head m out t e r hp hh]
      simp [hne]
    constructor
    · unfold handleCmdCycle
      rw [errDispatch_quitReason]
      dsimp only
      rw [if_pos ⟨rfl, by rw [cmdCyclePre_errExit]; exact hE⟩]
    · have h1 := (handleCmdCycle_skel_insert E m out (CmdErr.exitError false) hd).1
      rw [hp] at h1
      exact h1
  · intro hE heq
    have hd : isDifferentOutput m out = false := by
      rw [isDifferentOutput_head m out t e r hp hh, heq]
      simp
    constructor
    · unfold handleCmdCycle
      rw [errDispatch_quitReason]
      dsimp only
      rw [if_pos ⟨rfl, by rw [cmdCyclePre_errExit]; exact hE⟩]
    · exact (handleCmdCycle_dedup E m out (CmdErr.exitError false) hd).1

/-- C9 witness: from `mRunC` a differing `"b"` is inserted before the chgexit
quit; from `mRunF` a differing `"b"` is inserted before the errexit quit;
from `mRunF` an identical `"x"` triggers errexit with the store unchanged. -/
theorem C9_trigger_capture_witness :
    ((handleCmdCycle simpleEngine mRunC "b" CmdErr.noErr).quitReason
        = some QuitReason.chgExitTrig ∧
      histSkel (handleCmdCycle simpleEngine mRunC "b" CmdErr.noErr).hist
        = (1, "b", some 0) :: histSkel mRunC.hist) ∧
    histSkel (handleCmdCycle simpleEngine mRunF "b" (CmdErr.exitError false)).hist
        = (1, "b", some 0) :: histSkel mRunF.hist ∧
    (handleCmdCycle simpleEngine mRunF "x" (CmdErr.exitError false)).hist
        = mRunF.hist := by
  refine ⟨?_, ?_, ?_⟩
  · exact (C9_trigger_capture simpleEngine mRunC "b" 0 ⟨"x", none, none, none⟩ []
      rfl rfl).1 rfl (by decide)
  · exact ((C9_trigger_capture simpleEngine mRunF "b" 0 ⟨"x", none, none, none⟩ []
      rfl rfl).2.1 rfl (by decide)).2
  · exact ((C9_trigger_capture simpleEngine mRunF "x" 0 ⟨"x", none, none, none⟩ []
      rfl rfl).2.2 rfl rfl).2

/-- C10: an insertion while `follow` is false leaves the captured selection in
place: the new item goes in at the top of the list, the cursor moves down one
slot (`m.list.CursorDown()`, src/main.go:553), the item under the cursor is
the one selected before, and the displayed capture and pager text are
untouched. -/
theorem C10_browsing_undisturbed (E : DiffEngine) (m : Model) (out : String)
    (err : CmdErr) (t : Nat) (e : HistoryEntry) (r : List (Nat × HistoryEntry))
    (hf : m.follow = false) (hp : m.prevT = some t) (hh : m.hist = (t, e) :: r)
    (hne : e.plain ≠ out) (hidx : m.index < m.items.length) :
    (handleCmdCycle E m out err).items
        = newListItem m.clock out.length (countNewlines out) :: m.items ∧
    (handleCmdCycle E m out err).index = m.index + 1 ∧
    (handleCmdCycle E m out err).items.get? (m.index + 1) = m.items.get? m.index ∧
    (handleCmdCycle E m out err).seleT = m.seleT ∧
    (handleCmdCycle E m out err).pagerContent = m.pagerContent := by
  have hd : isDifferentOutput m out = true := by
    rw [isDifferentOutput_head m out t e r hp hh]
    simp [hne]
  obtain ⟨hit, hix, hsp⟩ := handleCmdCycle_nofollow_insert E m out err hf hd
  have hif : (if m.index + 1 < m.items.length + 1 then m.index + 1 else m.index)
      = m.index + 1 := if_pos (by omega)
  have hsp2 := hsp (by rw [hp]; rfl)
  refine ⟨hit, hix.trans hif, ?_, hsp2.1, hsp2.2⟩
  rw [hit]
  rfl

/-- C10 witness: inserting `"y"` into `mRun` (follow off, cursor on the single
item) puts the new item on top, moves the cursor to slot 1, where the
previously selected item still sits, and leaves the shown capture alone. -/
theorem C10_browsing_undisturbed_witness :
    (handleCmdCycle simpleEngine mRun "y" CmdErr.noErr).index = 1 ∧
    (handleCmdCycle simpleEngine mRun "y" CmdErr.noErr).items.get? 1
      = mRun.items.get? 0 ∧
    (handleCmdCycle simpleEngine mRun "y" CmdErr.noErr).seleT = mRun.seleT := by
  obtain ⟨-, h2, h3, h4, -⟩ := C10_browsing_undisturbed simpleEngine mRun "y"
    CmdErr.noErr 0 ⟨"x", none, none, none⟩ [] rfl rfl rfl (by decide) (by decide)
  exact ⟨h2, h3, h4⟩

end A555Watch
